import Mathlib

/-!
Verification development for the price-tracking backend
(app/services/price_batch.py, app/services/notification_service.py,
app/services/cache_service.py).

The embedding is a shallow functional model of the Python source:
  * SQLAlchemy sessions become an explicit pair of database states
    (committed vs live); `db.add` appends to the live state, `commit`
    copies live into committed, `rollback` copies committed into live.
  * `datetime.now()` is modelled by an explicit integer timestamp
    parameter (seconds); `uuid4` by a counter carried in the session.
  * The external search API is an oracle mapping attempt index to an
    outcome; the email dispatcher is an oracle boolean; the AI text
    collaborator is an `Option String` parameter.
  * Python floats (drop rates, change percents) are modelled as exact
    rationals; no claim under verification compares these values.
-/

/-- Timestamps in seconds, signed as Python datetimes subtract freely. -/
abbrev Time := Int

/-- Row of the products table (fields the core reads or writes). -/
structure Product where
  id : Nat
  name : String
  current_price : Int
  lowest_price : Option Int
  checked_at : Time
deriving DecidableEq

/-- Row of the watchlists table. -/
structure Watchlist where
  id : Nat
  user_id : Nat
  product_id : Nat
  target_price : Option Int
  notify_any_drop : Bool
  registered_price : Option Int
deriving DecidableEq

/-- Row of the users table (only id and email are read by the core). -/
structure User where
  id : Nat
  email : Option String
deriving DecidableEq

/-- Row of the price_history table. -/
structure PriceHistory where
  id : Nat
  product_id : Nat
  price : Int
  discount_rate : ℚ
  observed_at : Time
deriving DecidableEq

/-- Row of the alerts table. -/
structure Alert where
  id : Nat
  watch_item_id : Nat
  alert_type : String
  old_price : Int
  new_price : Int
  drop_rate : ℚ
  triggered_at : Time
deriving DecidableEq

/-- Row of the notifications table.  The title and message columns are
display strings that the logic never reads back; they are omitted. -/
structure Notification where
  id : Nat
  user_id : Nat
  alert_id : Nat
  channel : String
  is_read : Bool
  sent_at : Time
deriving DecidableEq

/-- The persistent tables touched by the pipeline. -/
structure DBState where
  products : List Product
  watchlists : List Watchlist
  users : List User
  price_histories : List PriceHistory
  alerts : List Alert
  notifications : List Notification
deriving DecidableEq

/-- A SQLAlchemy session: the committed database plus the live view
(committed data plus flushed or pending writes, which queries on the
same session observe), plus a counter supplying fresh ids (uuid4). -/
structure Session where
  committed : DBState
  live : DBState
  nextId : Nat
deriving DecidableEq

def Session.commit (s : Session) : Session := { s with committed := s.live }

def Session.rollback (s : Session) : Session := { s with live := s.committed }

def findProduct (d : DBState) (pid : Nat) : Option Product :=
  d.products.find? (fun p => p.id == pid)

def findUser (d : DBState) (uid : Nat) : Option User :=
  d.users.find? (fun u => u.id == uid)

/-- Python truthiness of an optional integer column: None and 0 are falsy. -/
def pyTruthyInt : Option Int → Bool
  | none => false
  | some v => v != 0

/-- Python truthiness of an optional email column: None and the empty
string are falsy. -/
def pyFalsyEmail : Option String → Bool
  | none => true
  | some e => e == ""

/-- NOTIFICATION_COOLDOWN_HOURS from notification_service.py. -/
def NOTIFICATION_COOLDOWN_HOURS : Int := 24

/-- Start of the cooldown window: now - timedelta(hours=24). -/
def cooldownSince (now : Time) : Time := now - NOTIFICATION_COOLDOWN_HOURS * 3600

/-- NotificationService._is_notification_cooldown.  The product_id
parameter is accepted but, exactly as in the source query, unused: the
query filters on user_id, sent_at and channel == "email" only. -/
def is_notification_cooldown (s : Session) (user_id : Nat) (product_id : Nat)
    (now : Time) : Bool :=
  s.live.notifications.any (fun n =>
    n.user_id == user_id && decide (cooldownSince now ≤ n.sent_at) &&
      n.channel == "email")

theorem is_notification_cooldown_pid_irrel (s : Session) (u p1 p2 : Nat) (now : Time) :
    is_notification_cooldown s u p1 now = is_notification_cooldown s u p2 now := rfl

/-- One call to the email dispatcher, recorded for observability. -/
structure EmailEvent where
  kind : String
  channel : String
  recipient : String
  user_id : Nat
  product_id : Nat
  old_price : Int
  new_price : Int
deriving DecidableEq

/-- Entry of the result list returned by the price-drop path. -/
structure DropResult where
  user_id : Nat
  user_email : String
  product_id : Nat
  old_price : Int
  new_price : Int
  drop_rate : ℚ
  email_sent : Bool
deriving DecidableEq

/-- NotificationService._send_notification: dispatch the email, add the
Alert, flush (ids are explicit here), add the Notification, then commit
the session.  Note the commit: the source commits per notification. -/
def send_notification (s : Session) (user : User) (product : Product)
    (watchlist_item : Watchlist) (old_price new_price : Int) (drop_rate : ℚ)
    (emailOk : Bool) (now : Time) (uemail : String) :
    Session × DropResult × EmailEvent :=
  let ev : EmailEvent :=
    { kind := "price_drop", channel := "email", recipient := uemail,
      user_id := user.id, product_id := product.id,
      old_price := old_price, new_price := new_price }
  let alert : Alert :=
    { id := s.nextId, watch_item_id := watchlist_item.id,
      alert_type := "price_drop", old_price := old_price,
      new_price := new_price, drop_rate := drop_rate, triggered_at := now }
  let s1 : Session :=
    { s with live := { s.live with alerts := s.live.alerts ++ [alert] },
             nextId := s.nextId + 1 }
  let notif : Notification :=
    { id := s1.nextId, user_id := user.id, alert_id := alert.id,
      channel := "email", is_read := false, sent_at := now }
  let s2 : Session :=
    { s1 with live := { s1.live with notifications := s1.live.notifications ++ [notif] },
              nextId := s1.nextId + 1 }
  (s2.commit,
   { user_id := user.id, user_email := uemail, product_id := product.id,
     old_price := old_price, new_price := new_price, drop_rate := drop_rate,
     email_sent := emailOk },
   ev)

/-- Body of the per-subscription loop of
check_and_send_price_drop_notifications: either every guard passes and a
notification is produced, or the item is skipped and the session is
returned unchanged. -/
def dropStep (emailOk : Bool) (now : Time) (product : Product)
    (old_price new_price : Int) (drop_rate : ℚ) (s : Session)
    (item : Watchlist) : Session × Option (DropResult × EmailEvent) :=
  if pyTruthyInt item.target_price && decide (new_price > item.target_price.getD 0) then
    (s, none)
  else
    match findUser s.live item.user_id with
    | none => (s, none)
    | some user =>
      if pyFalsyEmail user.email then (s, none)
      else
        match user.email with
        | none => (s, none)
        | some uemail =>
          if is_notification_cooldown s user.id product.id now then (s, none)
          else
            let r := send_notification s user product item old_price new_price
              drop_rate emailOk now uemail
            (r.1, some (r.2.1, r.2.2))

/-- The per-subscription loop of check_and_send_price_drop_notifications. -/
def dropLoop (emailOk : Bool) (now : Time) (product : Product)
    (old_price new_price : Int) (drop_rate : ℚ) :
    List Watchlist → Session → List DropResult → List EmailEvent →
    Session × List DropResult × List EmailEvent
  | [], s, res, evs => (s, res, evs)
  | item :: rest, s, res, evs =>
    match dropStep emailOk now product old_price new_price drop_rate s item with
    | (s2, none) => dropLoop emailOk now product old_price new_price drop_rate rest s2 res evs
    | (s2, some (r, ev)) =>
      dropLoop emailOk now product old_price new_price drop_rate rest s2
        (res ++ [r]) (evs ++ [ev])

/-- NotificationService.check_and_send_price_drop_notifications.
The drop rate uses total division on rationals; the source would raise
ZeroDivisionError when old_price = 0, a state the drop guard makes
unreachable for non-negative prices. -/
def check_and_send_price_drop_notifications (s : Session) (product_id : Nat)
    (old_price new_price : Int) (emailOk : Bool) (now : Time) :
    Session × List DropResult × List EmailEvent :=
  if new_price ≥ old_price then (s, [], [])
  else
    match findProduct s.live product_id with
    | none => (s, [], [])
    | some product =>
      let drop_rate : ℚ := ((old_price - new_price : Int) : ℚ) / ((old_price : Int) : ℚ) * 100
      let items := s.live.watchlists.filter
        (fun w => w.product_id == product_id && w.notify_any_drop)
      dropLoop emailOk now product old_price new_price drop_rate items s [] []

/-- Entry of the result list returned by the target-achieved path. -/
structure TargetResult where
  user_id : Nat
  user_email : String
  product_id : Nat
  registered_price : Int
  target_price : Int
  current_price : Int
  savings : Int
  email_sent : Bool
deriving DecidableEq

/-- Python expression item.registered_price or old_price: falls back on
the old price when the column is NULL or 0. -/
def registeredOr (r : Option Int) (old_price : Int) : Int :=
  match r with
  | none => old_price
  | some v => if v == 0 then old_price else v

/-- Body of the per-subscription loop of
check_and_send_target_achieved_notifications.  The AI recommendation
collaborator result (an optional text that failures turn into none) is
passed through and never gates the notification. -/
def targetStep (emailOk : Bool) (now : Time) (product : Product)
    (old_price new_price : Int) (s : Session) (item : Watchlist) :
    Session × Option (TargetResult × EmailEvent) :=
  match item.target_price with
  | none => (s, none)
  | some tv =>
    if decide (new_price > tv) then (s, none)
    else if decide (old_price ≤ tv) then (s, none)
    else
      match findUser s.live item.user_id with
      | none => (s, none)
      | some user =>
        if pyFalsyEmail user.email then (s, none)
        else
          match user.email with
          | none => (s, none)
          | some uemail =>
            if is_notification_cooldown s user.id product.id now then (s, none)
            else
              let registered := registeredOr item.registered_price old_price
              let ev : EmailEvent :=
                { kind := "target_achieved", channel := "email", recipient := uemail,
                  user_id := user.id, product_id := product.id,
                  old_price := old_price, new_price := new_price }
              let savings := registered - new_price
              let alert : Alert :=
                { id := s.nextId, watch_item_id := item.id,
                  alert_type := "target_achieved", old_price := old_price,
                  new_price := new_price,
                  drop_rate := ((registered - new_price : Int) : ℚ) / ((registered : Int) : ℚ) * 100,
                  triggered_at := now }
              let s1 : Session :=
                { s with live := { s.live with alerts := s.live.alerts ++ [alert] },
                         nextId := s.nextId + 1 }
              let notif : Notification :=
                { id := s1.nextId, user_id := user.id, alert_id := alert.id,
                  channel := "email", is_read := false, sent_at := now }
              let s2 : Session :=
                { s1 with live := { s1.live with notifications := s1.live.notifications ++ [notif] },
                          nextId := s1.nextId + 1 }
              (s2.commit,
               some ({ user_id := user.id, user_email := uemail,
                       product_id := product.id, registered_price := registered,
                       target_price := tv, current_price := new_price,
                       savings := savings, email_sent := emailOk }, ev))

/-- The per-subscription loop of
check_and_send_target_achieved_notifications. -/
def targetLoop (emailOk : Bool) (now : Time) (product : Product)
    (old_price new_price : Int) :
    List Watchlist → Session → List TargetResult → List EmailEvent →
    Session × List TargetResult × List EmailEvent
  | [], s, res, evs => (s, res, evs)
  | item :: rest, s, res, evs =>
    match targetStep emailOk now product old_price new_price s item with
    | (s2, none) => targetLoop emailOk now product old_price new_price rest s2 res evs
    | (s2, some (r, ev)) =>
      targetLoop emailOk now product old_price new_price rest s2
        (res ++ [r]) (evs ++ [ev])

/-- NotificationService.check_and_send_target_achieved_notifications. -/
def check_and_send_target_achieved_notifications (s : Session) (product_id : Nat)
    (old_price new_price : Int) (emailOk : Bool) (now : Time) :
    Session × List TargetResult × List EmailEvent :=
  if new_price ≥ old_price then (s, [], [])
  else
    match findProduct s.live product_id with
    | none => (s, [], [])
    | some product =>
      let items := s.live.watchlists.filter
        (fun w => w.product_id == product_id && w.target_price.isSome)
      targetLoop emailOk now product old_price new_price items s [] []

/-- Outcome of one attempt against the external search API:
a result (possibly with no matching item or no price field), a
retryable APIError, or any other exception. -/
inductive FetchOutcome where
  | ok (price : Option Int)
  | apiError
  | otherError
deriving DecidableEq

/-- Observable outcome of PriceBatchProcessor.fetch_latest_price:
returned price, number of attempts issued, backoff sleeps performed
(seconds), and how much the per-item error counter was bumped. -/
structure FetchResult where
  price : Option Int
  attempts : Nat
  sleeps : List Nat
  error_incr : Nat
deriving DecidableEq

/-- The retry loop of fetch_latest_price, structured over the number of
remaining attempts (remaining = max_retries - attempt). -/
def fetchAux (source : Nat → FetchOutcome) : Nat → Nat → List Nat → FetchResult
  | 0, attempt, sleeps =>
    { price := none, attempts := attempt, sleeps := sleeps, error_incr := 0 }
  | remaining + 1, attempt, sleeps =>
    match source attempt with
    | FetchOutcome.ok p =>
      { price := p, attempts := attempt + 1, sleeps := sleeps, error_incr := 0 }
    | FetchOutcome.apiError =>
      if remaining = 0 then
        { price := none, attempts := attempt + 1, sleeps := sleeps, error_incr := 1 }
      else
        fetchAux source remaining (attempt + 1) (sleeps ++ [2 ^ attempt])
    | FetchOutcome.otherError =>
      { price := none, attempts := attempt + 1, sleeps := sleeps, error_incr := 1 }

/-- PriceBatchProcessor.fetch_latest_price with its retry loop;
max_retries defaults to 3 at every call site. -/
def fetch_latest_price (source : Nat → FetchOutcome) (max_retries : Nat) : FetchResult :=
  fetchAux source max_retries 0 []

/-- The change_info dictionary built by detect_price_change. -/
structure ChangeInfo where
  product_id : Nat
  old_price : Int
  new_price : Int
  price_diff : Int
  is_price_drop : Bool
  change_percent : ℚ
deriving DecidableEq

/-- Rounding to two decimals.  Python rounds floats half-to-even; the
difference to this exact half-up rounding is irrelevant to every claim,
none of which reads change_percent. -/
def round2 (x : ℚ) : ℚ := (Int.floor (x * 100 + 1 / 2) : ℚ) / 100

/-- PriceBatchProcessor.detect_price_change. -/
def detect_price_change (product : Product) (new_price : Int) : ChangeInfo :=
  let old_price := product.current_price
  let price_diff := new_price - old_price
  { product_id := product.id, old_price := old_price, new_price := new_price,
    price_diff := price_diff, is_price_drop := decide (price_diff < 0),
    change_percent :=
      if decide (old_price > 0) then round2 ((price_diff : ℚ) / (old_price : ℚ) * 100) else 0 }

/-- PriceBatchProcessor.record_price_history: stage one PriceHistory row. -/
def record_price_history (s : Session) (product : Product) (new_price : Int)
    (now : Time) : Session :=
  let ph : PriceHistory :=
    { id := s.nextId, product_id := product.id, price := new_price,
      discount_rate := 0, observed_at := now }
  { s with live := { s.live with price_histories := s.live.price_histories ++ [ph] },
           nextId := s.nextId + 1 }

/-- PriceBatchProcessor.update_product_price applied to the mapped row. -/
def update_product_price (product : Product) (new_price : Int) (now : Time) : Product :=
  match product.lowest_price with
  | none =>
    { product with current_price := new_price, checked_at := now,
                   lowest_price := some new_price }
  | some l =>
    if new_price < l then
      { product with current_price := new_price, checked_at := now,
                     lowest_price := some new_price }
    else
      { product with current_price := new_price, checked_at := now }

/-- Assigning to a mapped ORM object updates the row with that id. -/
def DBState.setProduct (d : DBState) (p : Product) : DBState :=
  { d with products := d.products.map (fun q => if q.id = p.id then p else q) }

/-- PriceBatchProcessor instance state, plus an instrumentation list of
the dispatcher calls made on its behalf. -/
structure Processor where
  sess : Session
  updated_count : Nat
  error_count : Nat
  price_changes : List ChangeInfo
  events : List EmailEvent
deriving DecidableEq

/-- PriceBatchProcessor.process_product.  Exceptions from the
notification helper are caught and logged by the source (lines 166-167),
so a notification failure never aborts the product; the model has no
failing path inside the helper.  The target-achieved helper is never
invoked here, mirroring the source, which only calls
send_price_drop_notifications. -/
def process_product (source : Nat → FetchOutcome) (emailOk : Bool) (now : Time)
    (p : Processor) (product : Product) : Processor × Bool :=
  let fr := fetch_latest_price source 3
  let p1 : Processor := { p with error_count := p.error_count + fr.error_incr }
  match fr.price with
  | none => (p1, false)
  | some new_price =>
    let change := detect_price_change product new_price
    let s1 := record_price_history p1.sess product new_price now
    if change.price_diff = 0 then
      ({ p1 with sess := s1, updated_count := p1.updated_count + 1 }, true)
    else
      let product2 := update_product_price product new_price now
      let s2 : Session := { s1 with live := s1.live.setProduct product2 }
      let p2 : Processor :=
        { p1 with sess := s2, price_changes := p1.price_changes ++ [change] }
      if change.is_price_drop then
        let r := check_and_send_price_drop_notifications s2 product.id
          change.old_price change.new_price emailOk now
        ({ p2 with sess := r.1, events := p2.events ++ r.2.2,
                   updated_count := p2.updated_count + 1 }, true)
      else
        ({ p2 with updated_count := p2.updated_count + 1 }, true)

/-- Distinct watched product ids (first-occurrence order). -/
def watchedProductIds (d : DBState) : List Nat :=
  (d.watchlists.map (fun w => w.product_id)).eraseDups

/-- Products referenced by at least one subscription. -/
def watchedProducts (d : DBState) : List Product :=
  d.products.filter (fun p => (watchedProductIds d).contains p.id)

/-- The per-product loop of PriceBatchProcessor.run: the objects queried
up front are the live rows (ORM identity), so each product is looked up
in the live state when processed.  sources gives the API oracle per
product position. -/
def runLoop (sources : Nat → Nat → FetchOutcome) (emailOk : Bool) (now : Time) :
    List Nat → Nat → Processor → Processor
  | [], _, p => p
  | pid :: rest, i, p =>
    match findProduct p.sess.live pid with
    | none => runLoop sources emailOk now rest (i + 1) p
    | some product =>
      runLoop sources emailOk now rest (i + 1)
        (process_product (sources i) emailOk now p product).1

/-- The result summary of PriceBatchProcessor.run. -/
structure RunSummary where
  total : Nat
  updated : Nat
  errors : Nat
  price_drops : Nat
  price_increases : Nat
deriving DecidableEq

/-- Observable outcome of PriceBatchProcessor.run; summary = none means
the final commit raised and the exception propagated (fatal cycle). -/
structure RunOutput where
  sess : Session
  summary : Option RunSummary
  events : List EmailEvent
  error_count : Nat
deriving DecidableEq

/-- PriceBatchProcessor.run.  finalCommitOk tells whether the single
commit at the end of the cycle succeeds; on failure the source rolls the
session back and re-raises. -/
def PriceBatchProcessor.run (sources : Nat → Nat → FetchOutcome) (emailOk : Bool)
    (now : Time) (finalCommitOk : Bool) (s : Session) : RunOutput :=
  let prods := watchedProducts s.live
  if prods.isEmpty then
    let zero : RunSummary :=
      { total := 0, updated := 0, errors := 0, price_drops := 0, price_increases := 0 }
    { sess := s, summary := some zero, events := [], error_count := 0 }
  else
    let p0 : Processor :=
      { sess := s, updated_count := 0, error_count := 0,
        price_changes := [], events := [] }
    let p1 := runLoop sources emailOk now (prods.map (fun q => q.id)) 0 p0
    if finalCommitOk then
      { sess := p1.sess.commit,
        summary := some
          { total := prods.length, updated := p1.updated_count,
            errors := p1.error_count,
            price_drops := (p1.price_changes.filter (fun c => c.is_price_drop)).length,
            price_increases := (p1.price_changes.filter
              (fun c => !c.is_price_drop && c.price_diff != 0)).length },
        events := p1.events, error_count := p1.error_count }
    else
      { sess := p1.sess.rollback, summary := none,
        events := p1.events, error_count := p1.error_count }

/-- Whitespace characters stripped by Python str.strip. -/
def isPySpace (c : Char) : Bool :=
  c == ' ' || c == '\t' || c == '\n' || c == '\r' ||
    c == Char.ofNat 11 || c == Char.ofNat 12

/-- ProductCacheService._normalize_key: keyword.strip().lower(). -/
def normalize_key (s : String) : String :=
  String.mk ((((s.toList.dropWhile isPySpace).reverse.dropWhile isPySpace).reverse).map Char.toLower)

/-- One cache slot: normalized key, payload, absolute expiry instant.
An entry is live strictly before its expiry instant, dead at and after
it, matching the cachetools test (link.expires > time). -/
structure CacheEntry (α : Type) where
  key : String
  value : α
  expires : Int
deriving DecidableEq

/-- ProductCacheService over a cachetools TTLCache.  The entries list is
kept in least-recently-used-first order (the order of the OrderedDict of
links): reads and writes move the touched key to the end, evictions pop
the head.  Expired entries are removed by set, len and stats exactly as
the lazy expire of cachetools does; a pure model may also leave them in
place where cachetools would have removed them on an earlier len, which
no operation can observe. -/
structure ProductCacheService (α : Type) where
  ttl : Int
  max_size : Nat
  entries : List (CacheEntry α)
  hits : Nat
  misses : Nat
  sets : Nat
deriving DecidableEq

/-- ProductCacheService.__init__. -/
def ProductCacheService.init (α : Type) (ttl : Int) (max_size : Nat) :
    ProductCacheService α :=
  { ttl := ttl, max_size := max_size, entries := [], hits := 0, misses := 0, sets := 0 }

/-- Remove the first entry carrying the given key. -/
def eraseFirstKey {α : Type} : List (CacheEntry α) → String → List (CacheEntry α)
  | [], _ => []
  | e :: rest, key => if e.key == key then rest else e :: eraseFirstKey rest key

/-- ProductCacheService.get at an instant: normalize, look the key up
(which moves its link to the most-recent end even when it turns out to
be expired), then return the payload on a fresh entry and count a hit,
or count a miss. -/
def ProductCacheService.get {α : Type} (c : ProductCacheService α)
    (keyword : String) (now : Int) : Option α × ProductCacheService α :=
  let key := normalize_key keyword
  match c.entries.find? (fun e => e.key == key) with
  | none => (none, { c with misses := c.misses + 1 })
  | some e =>
    let moved := eraseFirstKey c.entries key ++ [e]
    if decide (now < e.expires) then
      (some e.value, { c with entries := moved, hits := c.hits + 1 })
    else
      (none, { c with entries := moved, misses := c.misses + 1 })

/-- ProductCacheService.set at an instant: drop expired entries, then
either replace an existing key (moving it to the most-recent end) or
insert, evicting least-recently-used entries while the bound would be
exceeded; the fresh entry expires ttl seconds from now. -/
def ProductCacheService.set {α : Type} (c : ProductCacheService α)
    (keyword : String) (v : α) (now : Int) : ProductCacheService α :=
  let key := normalize_key keyword
  let live := c.entries.filter (fun e => decide (now < e.expires))
  let kept :=
    if live.any (fun e => e.key == key) then live.filter (fun e => e.key != key)
    else live.drop (live.length + 1 - c.max_size)
  { c with entries := kept ++ [{ key := key, value := v, expires := now + c.ttl }],
           sets := c.sets + 1 }

/-- ProductCacheService.delete: only a present, unexpired key is deleted
(the containment test of cachetools reports expired keys as absent). -/
def ProductCacheService.delete {α : Type} (c : ProductCacheService α)
    (keyword : String) (now : Int) : Bool × ProductCacheService α :=
  let key := normalize_key keyword
  match c.entries.find? (fun e => e.key == key) with
  | none => (false, c)
  | some e =>
    if decide (now < e.expires) then
      (true, { c with entries := c.entries.filter (fun x => x.key != key) })
    else (false, c)

/-- ProductCacheService.clear: len expires lazily first, so the reported
count is the number of unexpired entries; everything is removed. -/
def ProductCacheService.clear {α : Type} (c : ProductCacheService α)
    (now : Int) : Nat × ProductCacheService α :=
  ((c.entries.filter (fun e => decide (now < e.expires))).length,
   { c with entries := [] })

/-- The stats snapshot (hit_rate, a float, is omitted; no claim reads it). -/
structure CacheStats where
  hits : Nat
  misses : Nat
  sets : Nat
  current_size : Nat
  max_size : Nat
deriving DecidableEq

/-- ProductCacheService.get_stats: current_size is len(self._cache),
which expires dead entries before counting. -/
def ProductCacheService.get_stats {α : Type} (c : ProductCacheService α)
    (now : Int) : CacheStats :=
  { hits := c.hits, misses := c.misses, sets := c.sets,
    current_size := (c.entries.filter (fun e => decide (now < e.expires))).length,
    max_size := c.max_size }

/-- A client-visible cache operation together with the instant it runs. -/
inductive CacheOp (α : Type) where
  | get (k : String) (t : Int)
  | set (k : String) (v : α) (t : Int)
  | del (k : String) (t : Int)
  | clear (t : Int)

/-- Apply one operation, keeping only the cache state. -/
def applyOp {α : Type} (c : ProductCacheService α) : CacheOp α → ProductCacheService α
  | CacheOp.get k t => (ProductCacheService.get c k t).2
  | CacheOp.set k v t => ProductCacheService.set c k v t
  | CacheOp.del k t => (ProductCacheService.delete c k t).2
  | CacheOp.clear t => (ProductCacheService.clear c t).2

/-- Run a sequence of operations. -/
def runOps {α : Type} (c : ProductCacheService α) : List (CacheOp α) → ProductCacheService α
  | [] => c
  | op :: rest => runOps (applyOp c op) rest

/-- A user id that resolves to a user with a non-empty email address. -/
def dispatchableUsers (users : List User) (uid : Nat) : Prop :=
  ∃ user uemail, users.find? (fun x => x.id == uid) = some user ∧
    user.email = some uemail ∧ uemail ≠ ""

theorem dropStep_skip (emailOk : Bool) (now : Time) (product : Product)
    (oldP newP : Int) (dr : ℚ) (s : Session) (item : Watchlist) (s2 : Session)
    (h : dropStep emailOk now product oldP newP dr s item = (s2, none)) :
    s2 = s := by
  unfold dropStep at h
  repeat' split at h
  all_goals
    first
      | (injection h with h1 h2; exact h1.symm)
      | (injection h with h1 h2; exact Option.noConfusion h2)

theorem dropStep_send (emailOk : Bool) (now : Time) (product : Product)
    (oldP newP : Int) (dr : ℚ) (s : Session) (item : Watchlist)
    (s2 : Session) (r : DropResult) (ev : EmailEvent)
    (h : dropStep emailOk now product oldP newP dr s item = (s2, some (r, ev))) :
    ∃ user uemail alert notif,
      findUser s.live item.user_id = some user ∧
      user.id = item.user_id ∧
      user.email = some uemail ∧
      uemail ≠ "" ∧
      is_notification_cooldown s user.id product.id now = false ∧
      s2.live.products = s.live.products ∧
      s2.live.users = s.live.users ∧
      s2.live.watchlists = s.live.watchlists ∧
      s2.live.price_histories = s.live.price_histories ∧
      s2.live.alerts = s.live.alerts ++ [alert] ∧
      s2.live.notifications = s.live.notifications ++ [notif] ∧
      s2.committed = s2.live ∧
      alert.watch_item_id = item.id ∧ alert.alert_type = "price_drop" ∧
      notif.user_id = user.id ∧ notif.channel = "email" ∧ notif.sent_at = now ∧
      r.user_id = user.id ∧ ev.user_id = user.id ∧
      ev.channel = "email" ∧ ev.kind = "price_drop" := by
  unfold dropStep at h
  split at h
  · exact absurd h (by simp)
  · cases hfu : findUser s.live item.user_id with
    | none => rw [hfu] at h; exact absurd h (by simp)
    | some user =>
      rw [hfu] at h
      simp only [] at h
      split at h
      · exact absurd h (by simp)
      · split at h
        · exact absurd h (by simp)
        · rename_i uemail hem
          split at h
          · exact absurd h (by simp)
          · rename_i hcd
            have hid : user.id = item.user_id := by
              have := List.find?_some hfu
              simpa using this
            have hfe : pyFalsyEmail user.email = false := by
              rename_i hfe2 _
              simpa using hfe2
            have hne : uemail ≠ "" := by
              rw [hem] at hfe
              simpa [pyFalsyEmail] using hfe
            injection h with h1 h2
            injection h2 with h2
            injection h2 with hr hev
            refine ⟨user, uemail,
              { id := s.nextId, watch_item_id := item.id,
                alert_type := "price_drop", old_price := oldP,
                new_price := newP, drop_rate := dr, triggered_at := now },
              { id := s.nextId + 1, user_id := user.id, alert_id := s.nextId,
                channel := "email", is_read := false, sent_at := now },
              rfl, hid, hem, hne, by simpa using hcd, ?_, ?_, ?_, ?_, ?_, ?_, ?_,
              rfl, rfl, rfl, rfl, rfl, ?_, ?_, ?_, ?_⟩ <;>
              simp [← h1, ← hr, ← hev, send_notification, Session.commit]

theorem dropLoop_frame (emailOk : Bool) (now : Time) (product : Product)
    (oldP newP : Int) (dr : ℚ) :
    ∀ (items : List Watchlist) (s : Session) (res : List DropResult)
      (evs : List EmailEvent),
    (dropLoop emailOk now product oldP newP dr items s res evs).1.live.products = s.live.products ∧
    (dropLoop emailOk now product oldP newP dr items s res evs).1.live.users = s.live.users ∧
    (dropLoop emailOk now product oldP newP dr items s res evs).1.live.watchlists = s.live.watchlists ∧
    (dropLoop emailOk now product oldP newP dr items s res evs).1.live.price_histories = s.live.price_histories := by
  intro items
  induction items with
  | nil => intro s res evs; simp [dropLoop]
  | cons item rest ih =>
    intro s res evs
    simp only [dropLoop]
    rcases hstep : dropStep emailOk now product oldP newP dr s item with ⟨s2, o⟩
    cases o with
    | none =>
      have hs := dropStep_skip _ _ _ _ _ _ _ _ _ hstep
      subst hs
      exact ih _ res evs
    | some p =>
      rcases p with ⟨r, ev⟩
      obtain ⟨user, uemail, alert, notif, hfu, hid, hem, hne, hcd, hp, hu, hw,
        hph, hal, hno, hcm, ha1, ha2, hn1, hn2, hn3, hr1, he1, he2, he3⟩ :=
        dropStep_send _ _ _ _ _ _ _ _ _ _ _ hstep
      have h2 := ih s2 (res ++ [r]) (evs ++ [ev])
      exact ⟨h2.1.trans hp, h2.2.1.trans hu, h2.2.2.1.trans hw, h2.2.2.2.trans hph⟩

theorem dropLoop_growth (emailOk : Bool) (now : Time) (product : Product)
    (oldP newP : Int) (dr : ℚ) :
    ∀ (items : List Watchlist) (s : Session) (res : List DropResult)
      (evs : List EmailEvent),
    (∀ n, n ∈ s.live.notifications →
      n ∈ (dropLoop emailOk now product oldP newP dr items s res evs).1.live.notifications) ∧
    (∀ a, a ∈ (dropLoop emailOk now product oldP newP dr items s res evs).1.live.alerts →
      a ∈ s.live.alerts ∨ (a.alert_type = "price_drop" ∧
        ∃ w, w ∈ items ∧ a.watch_item_id = w.id ∧ dispatchableUsers s.live.users w.user_id)) ∧
    (∀ r2, r2 ∈ (dropLoop emailOk now product oldP newP dr items s res evs).2.1 →
      r2 ∈ res ∨ ∃ w, w ∈ items ∧ r2.user_id = w.user_id ∧
        dispatchableUsers s.live.users w.user_id) ∧
    (∀ e, e ∈ (dropLoop emailOk now product oldP newP dr items s res evs).2.2 →
      e ∈ evs ∨ (e.kind = "price_drop" ∧ e.channel = "email" ∧
        ∃ w, w ∈ items ∧ e.user_id = w.user_id ∧ dispatchableUsers s.live.users w.user_id)) ∧
    (∀ n, n ∈ (dropLoop emailOk now product oldP newP dr items s res evs).1.live.notifications →
      n ∈ s.live.notifications ∨ (n.channel = "email" ∧ n.sent_at = now ∧
        ∃ w, w ∈ items ∧ n.user_id = w.user_id ∧ dispatchableUsers s.live.users w.user_id)) := by
  intro items
  induction items with
  | nil =>
    intro s res evs
    refine ⟨fun n hn => ?_, fun a ha => ?_, fun r2 hr2 => ?_, fun e he => ?_, fun n hn => ?_⟩ <;>
      simp [dropLoop] at * <;> tauto
  | cons item rest ih =>
    intro s res evs
    simp only [dropLoop]
    rcases hstep : dropStep emailOk now product oldP newP dr s item with ⟨s2, o⟩
    cases o with
    | none =>
      have hs := dropStep_skip _ _ _ _ _ _ _ _ _ hstep
      subst hs
      obtain ⟨g1, g2, g3, g4, g5⟩ := ih _ res evs
      refine ⟨g1, fun a ha => ?_, fun r2 hr2 => ?_, fun e he => ?_, fun n hn => ?_⟩
      · rcases g2 a ha with h | ⟨ht, w, hw, hwa, hd⟩
        · exact Or.inl h
        · exact Or.inr ⟨ht, w, List.mem_cons_of_mem _ hw, hwa, hd⟩
      · rcases g3 r2 hr2 with h | ⟨w, hw, hwa, hd⟩
        · exact Or.inl h
        · exact Or.inr ⟨w, List.mem_cons_of_mem _ hw, hwa, hd⟩
      · rcases g4 e he with h | ⟨hk, hc, w, hw, hwa, hd⟩
        · exact Or.inl h
        · exact Or.inr ⟨hk, hc, w, List.mem_cons_of_mem _ hw, hwa, hd⟩
      · rcases g5 n hn with h | ⟨hc, hs2, w, hw, hwa, hd⟩
        · exact Or.inl h
        · exact Or.inr ⟨hc, hs2, w, List.mem_cons_of_mem _ hw, hwa, hd⟩
    | some p =>
      rcases p with ⟨r, ev⟩
      obtain ⟨user, uemail, alert, notif, hfu, hid, hem, hne, hcd, hp, hu, hw,
        hph, hal, hno, hcm, ha1, ha2, hn1, hn2, hn3, hr1, he1, he2, he3⟩ :=
        dropStep_send _ _ _ _ _ _ _ _ _ _ _ hstep
      obtain ⟨g1, g2, g3, g4, g5⟩ := ih s2 (res ++ [r]) (evs ++ [ev])
      have hdisp : dispatchableUsers s.live.users item.user_id :=
        ⟨user, uemail, hfu, hem, hne⟩
      have husers : s2.live.users = s.live.users := hu
      refine ⟨fun n hn => ?_, fun a ha => ?_, fun r2 hr2 => ?_, fun e he => ?_, fun n hn => ?_⟩
      · exact g1 n (by rw [hno]; exact List.mem_append_left _ hn)
      · rcases g2 a ha with h | ⟨ht, w, hwr, hwa, hd⟩
        · rw [hal] at h
          rcases List.mem_append.mp h with h | h
          · exact Or.inl h
          · have : a = alert := by simpa using h
            subst this
            exact Or.inr ⟨ha2, item, List.mem_cons_self _ _, ha1, hdisp⟩
        · rw [husers] at hd
          exact Or.inr ⟨ht, w, List.mem_cons_of_mem _ hwr, hwa, hd⟩
      · rcases g3 r2 hr2 with h | ⟨w, hwr, hwa, hd⟩
        · rcases List.mem_append.mp h with h | h
          · exact Or.inl h
          · have : r2 = r := by simpa using h
            subst this
            exact Or.inr ⟨item, List.mem_cons_self _ _, hr1.trans hid, hdisp⟩
        · rw [husers] at hd
          exact Or.inr ⟨w, List.mem_cons_of_mem _ hwr, hwa, hd⟩
      · rcases g4 e he with h | ⟨hk, hc, w, hwr, hwa, hd⟩
        · rcases List.mem_append.mp h with h | h
          · exact Or.inl h
          · have : e = ev := by simpa using h
            subst this
            exact Or.inr ⟨he3, he2, item, List.mem_cons_self _ _, he1.trans hid, hdisp⟩
        · rw [husers] at hd
          exact Or.inr ⟨hk, hc, w, List.mem_cons_of_mem _ hwr, hwa, hd⟩
      · rcases g5 n hn with h | ⟨hc, hs2, w, hwr, hwa, hd⟩
        · rw [hno] at h
          rcases List.mem_append.mp h with h | h
          · exact Or.inl h
          · have : n = notif := by simpa using h
            subst this
            exact Or.inr ⟨hn2, hn3, item, List.mem_cons_self _ _, hn1.trans hid, hdisp⟩
        · rw [husers] at hd
          exact Or.inr ⟨hc, hs2, w, List.mem_cons_of_mem _ hwr, hwa, hd⟩

theorem dropLoop_commit (emailOk : Bool) (now : Time) (product : Product)
    (oldP newP : Int) (dr : ℚ) :
    ∀ (items : List Watchlist) (s : Session) (res : List DropResult)
      (evs : List EmailEvent),
    ∃ resT evsT,
      (dropLoop emailOk now product oldP newP dr items s res evs).2.1 = res ++ resT ∧
      (dropLoop emailOk now product oldP newP dr items s res evs).2.2 = evs ++ evsT ∧
      (evsT = [] →
        (dropLoop emailOk now product oldP newP dr items s res evs).1.committed = s.committed ∧
        (dropLoop emailOk now product oldP newP dr items s res evs).1 = s) := by
  intro items
  induction items with
  | nil =>
    intro s res evs
    exact ⟨[], [], by simp [dropLoop], by simp [dropLoop], fun _ => ⟨rfl, rfl⟩⟩
  | cons item rest ih =>
    intro s res evs
    simp only [dropLoop]
    rcases hstep : dropStep emailOk now product oldP newP dr s item with ⟨s2, o⟩
    cases o with
    | none =>
      have hs := dropStep_skip _ _ _ _ _ _ _ _ _ hstep
      subst hs
      exact ih _ res evs
    | some p =>
      rcases p with ⟨r, ev⟩
      obtain ⟨resT, evsT, h1, h2, _⟩ := ih s2 (res ++ [r]) (evs ++ [ev])
      refine ⟨[r] ++ resT, [ev] ++ evsT, ?_, ?_, ?_⟩
      · rw [h1]; simp
      · rw [h2]; simp
      · intro h; exact absurd h (by simp)

theorem dropLoop_cooldown (emailOk : Bool) (now : Time) (product : Product)
    (oldP newP : Int) (dr : ℚ) (u : Nat) :
    ∀ (items : List Watchlist) (s : Session) (res : List DropResult)
      (evs : List EmailEvent),
    is_notification_cooldown s u product.id now = true →
    ((dropLoop emailOk now product oldP newP dr items s res evs).2.1.filter
      (fun x => x.user_id == u) = res.filter (fun x => x.user_id == u)) ∧
    ((dropLoop emailOk now product oldP newP dr items s res evs).2.2.filter
      (fun e => e.user_id == u) = evs.filter (fun e => e.user_id == u)) ∧
    ((dropLoop emailOk now product oldP newP dr items s res evs).1.live.notifications.filter
      (fun n => n.user_id == u) = s.live.notifications.filter (fun n => n.user_id == u)) ∧
    (∀ a, a ∈ (dropLoop emailOk now product oldP newP dr items s res evs).1.live.alerts →
      a ∈ s.live.alerts ∨ ∃ w, w ∈ items ∧ a.watch_item_id = w.id ∧ w.user_id ≠ u) ∧
    is_notification_cooldown
      (dropLoop emailOk now product oldP newP dr items s res evs).1 u product.id now = true := by
  intro items
  induction items with
  | nil =>
    intro s res evs hc
    exact ⟨rfl, rfl, rfl, fun a ha => Or.inl ha, hc⟩
  | cons item rest ih =>
    intro s res evs hc
    simp only [dropLoop]
    rcases hstep : dropStep emailOk now product oldP newP dr s item with ⟨s2, o⟩
    cases o with
    | none =>
      have hs := dropStep_skip _ _ _ _ _ _ _ _ _ hstep
      subst hs
      obtain ⟨g1, g2, g3, g4, g5⟩ := ih _ res evs hc
      refine ⟨g1, g2, g3, fun a ha => ?_, g5⟩
      rcases g4 a ha with h | ⟨w, hwr, hwa, hwu⟩
      · exact Or.inl h
      · exact Or.inr ⟨w, List.mem_cons_of_mem _ hwr, hwa, hwu⟩
    | some p =>
      rcases p with ⟨r, ev⟩
      obtain ⟨user, uemail, alert, notif, hfu, hid, hem, hne, hcd, hp, hu, hw,
        hph, hal, hno, hcm, ha1, ha2, hn1, hn2, hn3, hr1, he1, he2, he3⟩ :=
        dropStep_send _ _ _ _ _ _ _ _ _ _ _ hstep
      have hneu : item.user_id ≠ u := by
        intro heq
        rw [hid, heq] at hcd
        rw [hcd] at hc
        exact Bool.noConfusion hc
      have hc2 : is_notification_cooldown s2 u product.id now = true := by
        unfold is_notification_cooldown at hc ⊢
        rw [hno, List.any_append]
        simp only [hc, Bool.true_or]
      obtain ⟨g1, g2, g3, g4, g5⟩ := ih s2 (res ++ [r]) (evs ++ [ev]) hc2
      have hru : (r.user_id == u) = false := by
        simp [hr1.trans hid, hneu]
      have hevu : (ev.user_id == u) = false := by
        simp [he1.trans hid, hneu]
      have hnu : (notif.user_id == u) = false := by
        simp [hn1.trans hid, hneu]
      refine ⟨?_, ?_, ?_, fun a ha => ?_, g5⟩
      · rw [g1, List.filter_append]
        simp [hru]
      · rw [g2, List.filter_append]
        simp [hevu]
      · rw [g3, hno, List.filter_append]
        simp [hnu]
      · rcases g4 a ha with h | ⟨w, hwr, hwa, hwu⟩
        · rw [hal] at h
          rcases List.mem_append.mp h with h | h
          · exact Or.inl h
          · have : a = alert := by simpa using h
            subst this
            exact Or.inr ⟨item, List.mem_cons_self _ _, ha1, hneu⟩
        · exact Or.inr ⟨w, List.mem_cons_of_mem _ hwr, hwa, hwu⟩

theorem cooldownSince_eq (now : Time) : cooldownSince now = now - 86400 := by
  norm_num [cooldownSince, NOTIFICATION_COOLDOWN_HOURS]

theorem cooldownSince_le_self (now : Time) : cooldownSince now ≤ now := by
  rw [cooldownSince_eq]
  exact sub_le_self now (by norm_num)

theorem dropLoop_once (emailOk : Bool) (now : Time) (product : Product)
    (oldP newP : Int) (dr : ℚ) (u : Nat) :
    ∀ (items : List Watchlist) (s : Session) (res : List DropResult)
      (evs : List EmailEvent),
    (((dropLoop emailOk now product oldP newP dr items s res evs).2.2.filter
        (fun e => e.user_id == u)).length ≤
      (evs.filter (fun e => e.user_id == u)).length + 1) ∧
    ((evs.filter (fun e => e.user_id == u)).length <
      ((dropLoop emailOk now product oldP newP dr items s res evs).2.2.filter
        (fun e => e.user_id == u)).length →
      ∃ n, n ∈ (dropLoop emailOk now product oldP newP dr items s res evs).1.live.notifications ∧
        n.user_id = u ∧ n.channel = "email" ∧ n.sent_at = now) := by
  intro items
  induction items with
  | nil =>
    intro s res evs
    constructor
    · simp [dropLoop]
    · intro h
      simp [dropLoop] at h
  | cons item rest ih =>
    intro s res evs
    simp only [dropLoop]
    rcases hstep : dropStep emailOk now product oldP newP dr s item with ⟨s2, o⟩
    cases o with
    | none =>
      have hs := dropStep_skip _ _ _ _ _ _ _ _ _ hstep
      subst hs
      exact ih _ res evs
    | some p =>
      rcases p with ⟨r, ev⟩
      obtain ⟨user, uemail, alert, notif, hfu, hid, hem, hne, hcd, hp, hu, hw,
        hph, hal, hno, hcm, ha1, ha2, hn1, hn2, hn3, hr1, he1, he2, he3⟩ :=
        dropStep_send _ _ _ _ _ _ _ _ _ _ _ hstep
      by_cases hevu : ev.user_id = u
      · have huid : user.id = u := by rw [← he1]; exact hevu
        have hnotif_mem : notif ∈ s2.live.notifications := by
          rw [hno]; simp
        have hc2 : is_notification_cooldown s2 u product.id now = true := by
          unfold is_notification_cooldown
          rw [hno, List.any_append]
          have hpred : (notif.user_id == u && decide (cooldownSince now ≤ notif.sent_at) &&
              notif.channel == "email") = true := by
            rw [hn1, huid, hn2, hn3]
            simp [cooldownSince_le_self]
          simp [hpred]
        obtain ⟨c1, c2, c3, c4, c5⟩ :=
          dropLoop_cooldown emailOk now product oldP newP dr u rest s2
            (res ++ [r]) (evs ++ [ev]) hc2
        obtain ⟨g1, _, _, _, _⟩ :=
          dropLoop_growth emailOk now product oldP newP dr rest s2
            (res ++ [r]) (evs ++ [ev])
        constructor
        · rw [c2, List.filter_append]
          simp [hevu]
        · intro _
          exact ⟨notif, g1 notif hnotif_mem, by rw [hn1, huid], hn2, hn3⟩
      · have hfil : (evs ++ [ev]).filter (fun e => e.user_id == u) =
            evs.filter (fun e => e.user_id == u) := by
          simp [List.filter_append, hevu]
        obtain ⟨b1, b2⟩ := ih s2 (res ++ [r]) (evs ++ [ev])
        rw [hfil] at b1 b2
        exact ⟨b1, b2⟩

theorem targetStep_skip (emailOk : Bool) (now : Time) (product : Product)
    (oldP newP : Int) (s : Session) (item : Watchlist) (s2 : Session)
    (h : targetStep emailOk now product oldP newP s item = (s2, none)) :
    s2 = s := by
  unfold targetStep at h
  repeat' split at h
  all_goals
    first
      | (injection h with h1 h2; exact h1.symm)
      | (injection h with h1 h2; exact Option.noConfusion h2)

theorem targetStep_send (emailOk : Bool) (now : Time) (product : Product)
    (oldP newP : Int) (s : Session) (item : Watchlist)
    (s2 : Session) (r : TargetResult) (ev : EmailEvent)
    (h : targetStep emailOk now product oldP newP s item = (s2, some (r, ev))) :
    ∃ user uemail alert notif tv,
      item.target_price = some tv ∧
      newP ≤ tv ∧ tv < oldP ∧
      findUser s.live item.user_id = some user ∧
      user.id = item.user_id ∧
      user.email = some uemail ∧
      uemail ≠ "" ∧
      is_notification_cooldown s user.id product.id now = false ∧
      s2.live.products = s.live.products ∧
      s2.live.users = s.live.users ∧
      s2.live.watchlists = s.live.watchlists ∧
      s2.live.price_histories = s.live.price_histories ∧
      s2.live.alerts = s.live.alerts ++ [alert] ∧
      s2.live.notifications = s.live.notifications ++ [notif] ∧
      s2.committed = s2.live ∧
      alert.watch_item_id = item.id ∧ alert.alert_type = "target_achieved" ∧
      notif.user_id = user.id ∧ notif.channel = "email" ∧ notif.sent_at = now ∧
      r.user_id = user.id ∧ ev.user_id = user.id ∧
      ev.channel = "email" ∧ ev.kind = "target_achieved" := by
  unfold targetStep at h
  cases htv : item.target_price with
  | none => rw [htv] at h; exact absurd h (by simp)
  | some tv =>
    rw [htv] at h
    simp only [] at h
    split at h
    · exact absurd h (by simp)
    · rename_i hng
      split at h
      · exact absurd h (by simp)
      · rename_i hog
        cases hfu : findUser s.live item.user_id with
        | none => rw [hfu] at h; exact absurd h (by simp)
        | some user =>
          rw [hfu] at h
          simp only [] at h
          split at h
          · exact absurd h (by simp)
          · rename_i hfe2
            split at h
            · exact absurd h (by simp)
            · rename_i uemail hem
              split at h
              · exact absurd h (by simp)
              · rename_i hcd
                have hid : user.id = item.user_id := by
                  have := List.find?_some hfu
                  simpa using this
                have hne : uemail ≠ "" := by
                  have hfe : pyFalsyEmail user.email = false := by simpa using hfe2
                  rw [hem] at hfe
                  simpa [pyFalsyEmail] using hfe
                have hng2 : newP ≤ tv := by simpa using hng
                have hog2 : tv < oldP := by simpa using hog
                injection h with h1 h2
                injection h2 with h2
                injection h2 with hr hev
                refine ⟨user, uemail,
                  { id := s.nextId, watch_item_id := item.id,
                    alert_type := "target_achieved", old_price := oldP,
                    new_price := newP,
                    drop_rate := ((registeredOr item.registered_price oldP - newP : Int) : ℚ) /
                      ((registeredOr item.registered_price oldP : Int) : ℚ) * 100,
                    triggered_at := now },
                  { id := s.nextId + 1, user_id := user.id, alert_id := s.nextId,
                    channel := "email", is_read := false, sent_at := now },
                  tv, rfl, hng2, hog2, rfl, hid, hem, hne, by simpa using hcd,
                  ?_, ?_, ?_, ?_, ?_, ?_, ?_,
                  rfl, rfl, rfl, rfl, rfl, ?_, ?_, ?_, ?_⟩ <;>
                  simp [← h1, ← hr, ← hev, Session.commit]

theorem targetLoop_growth (emailOk : Bool) (now : Time) (product : Product)
    (oldP newP : Int) :
    ∀ (items : List Watchlist) (s : Session) (res : List TargetResult)
      (evs : List EmailEvent),
    (∀ n, n ∈ s.live.notifications →
      n ∈ (targetLoop emailOk now product oldP newP items s res evs).1.live.notifications) ∧
    (∀ a, a ∈ (targetLoop emailOk now product oldP newP items s res evs).1.live.alerts →
      a ∈ s.live.alerts ∨ (a.alert_type = "target_achieved" ∧
        ∃ w, w ∈ items ∧ a.watch_item_id = w.id ∧ dispatchableUsers s.live.users w.user_id)) ∧
    (∀ r2, r2 ∈ (targetLoop emailOk now product oldP newP items s res evs).2.1 →
      r2 ∈ res ∨ ∃ w, w ∈ items ∧ r2.user_id = w.user_id ∧
        dispatchableUsers s.live.users w.user_id) ∧
    (∀ e, e ∈ (targetLoop emailOk now product oldP newP items s res evs).2.2 →
      e ∈ evs ∨ (e.kind = "target_achieved" ∧ e.channel = "email" ∧
        ∃ w, w ∈ items ∧ e.user_id = w.user_id ∧ dispatchableUsers s.live.users w.user_id)) ∧
    (∀ n, n ∈ (targetLoop emailOk now product oldP newP items s res evs).1.live.notifications →
      n ∈ s.live.notifications ∨ (n.channel = "email" ∧ n.sent_at = now ∧
        ∃ w, w ∈ items ∧ n.user_id = w.user_id ∧ dispatchableUsers s.live.users w.user_id)) := by
  intro items
  induction items with
  | nil =>
    intro s res evs
    refine ⟨fun n hn => ?_, fun a ha => ?_, fun r2 hr2 => ?_, fun e he => ?_, fun n hn => ?_⟩ <;>
      simp [targetLoop] at * <;> tauto
  | cons item rest ih =>
    intro s res evs
    simp only [targetLoop]
    rcases hstep : targetStep emailOk now product oldP newP s item with ⟨s2, o⟩
    cases o with
    | none =>
      have hs := targetStep_skip _ _ _ _ _ _ _ _ hstep
      subst hs
      obtain ⟨g1, g2, g3, g4, g5⟩ := ih _ res evs
      refine ⟨g1, fun a ha => ?_, fun r2 hr2 => ?_, fun e he => ?_, fun n hn => ?_⟩
      · rcases g2 a ha with h | ⟨ht, w, hwr, hwa, hd⟩
        · exact Or.inl h
        · exact Or.inr ⟨ht, w, List.mem_cons_of_mem _ hwr, hwa, hd⟩
      · rcases g3 r2 hr2 with h | ⟨w, hwr, hwa, hd⟩
        · exact Or.inl h
        · exact Or.inr ⟨w, List.mem_cons_of_mem _ hwr, hwa, hd⟩
      · rcases g4 e he with h | ⟨hk, hc, w, hwr, hwa, hd⟩
        · exact Or.inl h
        · exact Or.inr ⟨hk, hc, w, List.mem_cons_of_mem _ hwr, hwa, hd⟩
      · rcases g5 n hn with h | ⟨hc, hs2, w, hwr, hwa, hd⟩
        · exact Or.inl h
        · exact Or.inr ⟨hc, hs2, w, List.mem_cons_of_mem _ hwr, hwa, hd⟩
    | some p =>
      rcases p with ⟨r, ev⟩
      obtain ⟨user, uemail, alert, notif, tv, htv, hng, hog, hfu, hid, hem, hne,
        hcd, hp, hu, hw, hph, hal, hno, hcm, ha1, ha2, hn1, hn2, hn3, hr1, he1, he2, he3⟩ :=
        targetStep_send _ _ _ _ _ _ _ _ _ _ hstep
      obtain ⟨g1, g2, g3, g4, g5⟩ := ih s2 (res ++ [r]) (evs ++ [ev])
      have hdisp : dispatchableUsers s.live.users item.user_id :=
        ⟨user, uemail, hfu, hem, hne⟩
      have husers : s2.live.users = s.live.users := hu
      refine ⟨fun n hn => ?_, fun a ha => ?_, fun r2 hr2 => ?_, fun e he => ?_, fun n hn => ?_⟩
      · exact g1 n (by rw [hno]; exact List.mem_append_left _ hn)
      · rcases g2 a ha with h | ⟨ht, w, hwr, hwa, hd⟩
        · rw [hal] at h
          rcases List.mem_append.mp h with h | h
          · exact Or.inl h
          · have : a = alert := by simpa using h
            subst this
            exact Or.inr ⟨ha2, item, List.mem_cons_self _ _, ha1, hdisp⟩
        · rw [husers] at hd
          exact Or.inr ⟨ht, w, List.mem_cons_of_mem _ hwr, hwa, hd⟩
      · rcases g3 r2 hr2 with h | ⟨w, hwr, hwa, hd⟩
        · rcases List.mem_append.mp h with h | h
          · exact Or.inl h
          · have : r2 = r := by simpa using h
            subst this
            exact Or.inr ⟨item, List.mem_cons_self _ _, hr1.trans hid, hdisp⟩
        · rw [husers] at hd
          exact Or.inr ⟨w, List.mem_cons_of_mem _ hwr, hwa, hd⟩
      · rcases g4 e he with h | ⟨hk, hc, w, hwr, hwa, hd⟩
        · rcases List.mem_append.mp h with h | h
          · exact Or.inl h
          · have : e = ev := by simpa using h
            subst this
            exact Or.inr ⟨he3, he2, item, List.mem_cons_self _ _, he1.trans hid, hdisp⟩
        · rw [husers] at hd
          exact Or.inr ⟨hk, hc, w, List.mem_cons_of_mem _ hwr, hwa, hd⟩
      · rcases g5 n hn with h | ⟨hc, hs2, w, hwr, hwa, hd⟩
        · rw [hno] at h
          rcases List.mem_append.mp h with h | h
          · exact Or.inl h
          · have : n = notif := by simpa using h
            subst this
            exact Or.inr ⟨hn2, hn3, item, List.mem_cons_self _ _, hn1.trans hid, hdisp⟩
        · rw [husers] at hd
          exact Or.inr ⟨hc, hs2, w, List.mem_cons_of_mem _ hwr, hwa, hd⟩

theorem check_drop_frame (s : Session) (pid : Nat) (oldP newP : Int)
    (emailOk : Bool) (now : Int) :
    (check_and_send_price_drop_notifications s pid oldP newP emailOk now).1.live.products = s.live.products ∧
    (check_and_send_price_drop_notifications s pid oldP newP emailOk now).1.live.users = s.live.users ∧
    (check_and_send_price_drop_notifications s pid oldP newP emailOk now).1.live.watchlists = s.live.watchlists ∧
    (check_and_send_price_drop_notifications s pid oldP newP emailOk now).1.live.price_histories = s.live.price_histories := by
  unfold check_and_send_price_drop_notifications
  split
  · exact ⟨rfl, rfl, rfl, rfl⟩
  · cases hfp : findProduct s.live pid with
    | none => exact ⟨rfl, rfl, rfl, rfl⟩
    | some product => exact dropLoop_frame _ _ _ _ _ _ _ _ _ _

theorem check_drop_commit (s : Session) (pid : Nat) (oldP newP : Int)
    (emailOk : Bool) (now : Int) :
    (check_and_send_price_drop_notifications s pid oldP newP emailOk now).2.2 = [] →
    (check_and_send_price_drop_notifications s pid oldP newP emailOk now).1.committed = s.committed := by
  unfold check_and_send_price_drop_notifications
  split
  · exact fun _ => rfl
  · cases hfp : findProduct s.live pid with
    | none => exact fun _ => rfl
    | some product =>
      intro h
      obtain ⟨resT, evsT, h1, h2, h3⟩ := dropLoop_commit _ _ _ _ _ _ _ _ _ _
      rw [h2] at h
      simp only [List.nil_append] at h
      exact (h3 h).1 ▸ rfl

theorem check_drop_growth (s : Session) (pid : Nat) (oldP newP : Int)
    (emailOk : Bool) (now : Int) :
    (∀ n, n ∈ s.live.notifications →
      n ∈ (check_and_send_price_drop_notifications s pid oldP newP emailOk now).1.live.notifications) ∧
    (∀ a, a ∈ (check_and_send_price_drop_notifications s pid oldP newP emailOk now).1.live.alerts →
      a ∈ s.live.alerts ∨ (a.alert_type = "price_drop" ∧
        ∃ w, w ∈ s.live.watchlists ∧ a.watch_item_id = w.id ∧
          dispatchableUsers s.live.users w.user_id)) ∧
    (∀ r2, r2 ∈ (check_and_send_price_drop_notifications s pid oldP newP emailOk now).2.1 →
      ∃ w, w ∈ s.live.watchlists ∧ r2.user_id = w.user_id ∧
        dispatchableUsers s.live.users w.user_id) ∧
    (∀ e, e ∈ (check_and_send_price_drop_notifications s pid oldP newP emailOk now).2.2 →
      e.kind = "price_drop" ∧ e.channel = "email" ∧
        ∃ w, w ∈ s.live.watchlists ∧ e.user_id = w.user_id ∧
          dispatchableUsers s.live.users w.user_id) ∧
    (∀ n, n ∈ (check_and_send_price_drop_notifications s pid oldP newP emailOk now).1.live.notifications →
      n ∈ s.live.notifications ∨ (n.channel = "email" ∧ n.sent_at = now ∧
        ∃ w, w ∈ s.live.watchlists ∧ n.user_id = w.user_id ∧
          dispatchableUsers s.live.users w.user_id)) := by
  unfold check_and_send_price_drop_notifications
  split
  · exact ⟨fun n hn => hn, fun a ha => Or.inl ha, fun r2 hr2 => absurd hr2 (by simp),
      fun e he => absurd he (by simp), fun n hn => Or.inl hn⟩
  · cases hfp : findProduct s.live pid with
    | none =>
      exact ⟨fun n hn => hn, fun a ha => Or.inl ha, fun r2 hr2 => absurd hr2 (by simp),
        fun e he => absurd he (by simp), fun n hn => Or.inl hn⟩
    | some product =>
      obtain ⟨g1, g2, g3, g4, g5⟩ := dropLoop_growth emailOk now product oldP newP
        (((oldP - newP : Int) : ℚ) / ((oldP : Int) : ℚ) * 100)
        (s.live.watchlists.filter (fun w => w.product_id == pid && w.notify_any_drop))
        s [] []
      refine ⟨g1, fun a ha => ?_, fun r2 hr2 => ?_, fun e he => ?_, fun n hn => ?_⟩
      · rcases g2 a ha with h | ⟨ht, w, hwr, hwa, hd⟩
        · exact Or.inl h
        · exact Or.inr ⟨ht, w, (List.mem_filter.mp hwr).1, hwa, hd⟩
      · rcases g3 r2 hr2 with h | ⟨w, hwr, hwa, hd⟩
        · exact absurd h (by simp)
        · exact ⟨w, (List.mem_filter.mp hwr).1, hwa, hd⟩
      · rcases g4 e he with h | ⟨hk, hc, w, hwr, hwa, hd⟩
        · exact absurd h (by simp)
        · exact ⟨hk, hc, w, (List.mem_filter.mp hwr).1, hwa, hd⟩
      · rcases g5 n hn with h | ⟨hc, hs2, w, hwr, hwa, hd⟩
        · exact Or.inl h
        · exact Or.inr ⟨hc, hs2, w, (List.mem_filter.mp hwr).1, hwa, hd⟩

theorem check_drop_cooldown (s : Session) (pid : Nat) (oldP newP : Int)
    (emailOk : Bool) (now : Int) (u : Nat)
    (hc : is_notification_cooldown s u 0 now = true) :
    ((check_and_send_price_drop_notifications s pid oldP newP emailOk now).2.1.filter
      (fun x => x.user_id == u) = []) ∧
    ((check_and_send_price_drop_notifications s pid oldP newP emailOk now).2.2.filter
      (fun e => e.user_id == u) = []) ∧
    ((check_and_send_price_drop_notifications s pid oldP newP emailOk now).1.live.notifications.filter
      (fun n => n.user_id == u) = s.live.notifications.filter (fun n => n.user_id == u)) ∧
    (∀ a, a ∈ (check_and_send_price_drop_notifications s pid oldP newP emailOk now).1.live.alerts →
      a ∈ s.live.alerts ∨ ∃ w, w ∈ s.live.watchlists ∧ a.watch_item_id = w.id ∧ w.user_id ≠ u) ∧
    is_notification_cooldown
      (check_and_send_price_drop_notifications s pid oldP newP emailOk now).1 u 0 now = true := by
  unfold check_and_send_price_drop_notifications
  split
  · exact ⟨rfl, rfl, rfl, fun a ha => Or.inl ha, hc⟩
  · cases hfp : findProduct s.live pid with
    | none => exact ⟨rfl, rfl, rfl, fun a ha => Or.inl ha, hc⟩
    | some product =>
      obtain ⟨c1, c2, c3, c4, c5⟩ := dropLoop_cooldown emailOk now product oldP newP
        (((oldP - newP : Int) : ℚ) / ((oldP : Int) : ℚ) * 100) u
        (s.live.watchlists.filter (fun w => w.product_id == pid && w.notify_any_drop))
        s [] [] hc
      refine ⟨c1, c2, c3, fun a ha => ?_, c5⟩
      rcases c4 a ha with h | ⟨w, hwr, hwa, hwu⟩
      · exact Or.inl h
      · exact Or.inr ⟨w, (List.mem_filter.mp hwr).1, hwa, hwu⟩

theorem check_drop_once (s : Session) (pid : Nat) (oldP newP : Int)
    (emailOk : Bool) (now : Int) (u : Nat) :
    (((check_and_send_price_drop_notifications s pid oldP newP emailOk now).2.2.filter
        (fun e => e.user_id == u)).length ≤ 1) ∧
    ((check_and_send_price_drop_notifications s pid oldP newP emailOk now).2.2.filter
        (fun e => e.user_id == u) ≠ [] →
      ∃ n, n ∈ (check_and_send_price_drop_notifications s pid oldP newP emailOk now).1.live.notifications ∧
        n.user_id = u ∧ n.channel = "email" ∧ n.sent_at = now) := by
  unfold check_and_send_price_drop_notifications
  split
  · exact ⟨by simp, fun h => absurd rfl h⟩
  · cases hfp : findProduct s.live pid with
    | none => exact ⟨by simp, fun h => absurd rfl h⟩
    | some product =>
      obtain ⟨b1, b2⟩ := dropLoop_once emailOk now product oldP newP
        (((oldP - newP : Int) : ℚ) / ((oldP : Int) : ℚ) * 100) u
        (s.live.watchlists.filter (fun w => w.product_id == pid && w.notify_any_drop))
        s [] []
      refine ⟨by simpa using b1, fun h => ?_⟩
      have : 0 < ((dropLoop emailOk now product oldP newP
          (((oldP - newP : Int) : ℚ) / ((oldP : Int) : ℚ) * 100)
          (s.live.watchlists.filter (fun w => w.product_id == pid && w.notify_any_drop))
          s [] []).2.2.filter (fun e => e.user_id == u)).length := by
        cases hq : (dropLoop emailOk now product oldP newP
            (((oldP - newP : Int) : ℚ) / ((oldP : Int) : ℚ) * 100)
            (s.live.watchlists.filter (fun w => w.product_id == pid && w.notify_any_drop))
            s [] []).2.2.filter (fun e => e.user_id == u) with
        | nil => exact absurd hq h
        | cons x xs => simp
      obtain ⟨n, hn, h1, h2, h3⟩ := b2 (by simpa using this)
      exact ⟨n, hn, h1, h2, h3⟩

theorem cooldown_of_record (s : Session) (u : Nat) (pid : Nat) (now2 : Int)
    (n : Notification) (hn : n ∈ s.live.notifications) (h1 : n.user_id = u)
    (h2 : n.channel = "email") (h3 : now2 - 86400 ≤ n.sent_at) :
    is_notification_cooldown s u pid now2 = true := by
  unfold is_notification_cooldown
  rw [List.any_eq_true]
  refine ⟨n, hn, ?_⟩
  simp [h1, h2, cooldownSince_eq, h3]

/-- C2: a NotificationRecord for a user on the email channel within the
last 24 hours suppresses every further price-drop dispatch for that user
on that channel, on any product: no dispatcher call, no new Alert for
a subscription of that user, no new NotificationRecord for the
user, and no entry for the user in the returned results; moreover a
single evaluation dispatches to a given user at most once, and a
dispatch in one evaluation suppresses any dispatch to the same user in a
later evaluation within the cooldown window, so two drops inside one
window yield exactly one dispatch. -/
theorem cooldown_suppression_C2 (s : Session) (pid : Nat) (oldP newP : Int)
    (emailOk : Bool) (now : Int) (u : Nat)
    (out : Session × List DropResult × List EmailEvent)
    (hout : check_and_send_price_drop_notifications s pid oldP newP emailOk now = out) :
    (is_notification_cooldown s u pid now = true →
      out.2.2.filter (fun e => e.user_id == u) = [] ∧
      out.2.1.filter (fun x => x.user_id == u) = [] ∧
      out.1.live.notifications.filter (fun n => n.user_id == u) =
        s.live.notifications.filter (fun n => n.user_id == u) ∧
      (∀ a, a ∈ out.1.live.alerts → a ∈ s.live.alerts ∨
        ∃ w, w ∈ s.live.watchlists ∧ a.watch_item_id = w.id ∧ w.user_id ≠ u)) ∧
    ((out.2.2.filter (fun e => e.user_id == u)).length ≤ 1) ∧
    (∀ (pid2 : Nat) (old2 new2 : Int) (emailOk2 : Bool) (now2 : Int),
      out.2.2.filter (fun e => e.user_id == u) ≠ [] →
      now2 - 86400 ≤ now →
      (check_and_send_price_drop_notifications out.1 pid2 old2 new2 emailOk2 now2).2.2.filter
        (fun e => e.user_id == u) = []) := by
  subst hout
  refine ⟨fun hc => ?_, (check_drop_once s pid oldP newP emailOk now u).1, ?_⟩
  · obtain ⟨c1, c2, c3, c4, c5⟩ := check_drop_cooldown s pid oldP newP emailOk now u hc
    exact ⟨c2, c1, c3, c4⟩
  · intro pid2 old2 new2 emailOk2 now2 hne hwin
    obtain ⟨b1, b2⟩ := check_drop_once s pid oldP newP emailOk now u
    obtain ⟨n, hn, h1, h2, h3⟩ := b2 hne
    have hc2 : is_notification_cooldown
        (check_and_send_price_drop_notifications s pid oldP newP emailOk now).1 u 0 now2 = true :=
      cooldown_of_record _ u 0 now2 n hn h1 h2 (by rw [h3]; exact hwin)
    exact (check_drop_cooldown _ pid2 old2 new2 emailOk2 now2 u hc2).2.1

/-- Concrete world shared by the witnesses: one product watched by one
user with a target price and notify-any-drop set. -/
def prodA : Product :=
  { id := 1, name := "serum", current_price := 1200, lowest_price := some 1200,
    checked_at := 0 }

def userA : User := { id := 10, email := some "alice" }

def watchA : Watchlist :=
  { id := 100, user_id := 10, product_id := 1, target_price := some 1000,
    notify_any_drop := true, registered_price := some 1500 }

def db0 : DBState :=
  { products := [prodA], watchlists := [watchA], users := [userA],
    price_histories := [], alerts := [], notifications := [] }

def sess0 : Session := { committed := db0, live := db0, nextId := 500 }

def proc0 : Processor :=
  { sess := sess0, updated_count := 0, error_count := 0, price_changes := [],
    events := [] }

/-- An email notification for user 10 sent at instant 0. -/
def notifA : Notification :=
  { id := 400, user_id := 10, alert_id := 399, channel := "email",
    is_read := false, sent_at := 0 }

def dbCD : DBState := { db0 with notifications := [notifA] }

def sessCD : Session := { committed := dbCD, live := dbCD, nextId := 500 }

theorem cooldown_suppression_C2_witness :
    ((check_and_send_price_drop_notifications sessCD 1 1200 950 true 100).2.2.filter
      (fun e => e.user_id == 10) = []) ∧
    ((check_and_send_price_drop_notifications
        (check_and_send_price_drop_notifications sess0 1 1200 950 true 0).1
        1 950 900 true 3600).2.2.filter (fun e => e.user_id == 10) = []) := by
  constructor
  · exact ((cooldown_suppression_C2 sessCD 1 1200 950 true 100 10 _ rfl).1 (by decide)).1
  · exact (cooldown_suppression_C2 sess0 1 1200 950 true 0 10 _ rfl).2.2
      1 950 900 true 3600 (by decide) (by decide)

/-- C4: a source that raises the retryable APIError on every attempt
makes fetch_latest_price issue exactly max_retries = 3 attempts with the
strictly increasing, doubling backoff sleeps 1s then 2s, bump the
per-item error counter once and return the absent price without raising;
processing such a product stages no price-history row, no product
update, no notification  -  the processor only records the error. -/
theorem retry_exhaustion_C4 (source : Nat → FetchOutcome)
    (h : ∀ i, source i = FetchOutcome.apiError)
    (emailOk : Bool) (now : Int) (p : Processor) (product : Product) :
    fetch_latest_price source 3 =
      { price := none, attempts := 3, sleeps := [1, 2], error_incr := 1 } ∧
    process_product source emailOk now p product =
      ({ p with error_count := p.error_count + 1 }, false) := by
  have hf : fetch_latest_price source 3 =
      { price := none, attempts := 3, sleeps := [1, 2], error_incr := 1 } := by
    simp [fetch_latest_price, fetchAux, h]
  refine ⟨hf, ?_⟩
  simp [process_product, hf]

def srcApiErr : Nat → FetchOutcome := fun _ => FetchOutcome.apiError

theorem retry_exhaustion_C4_witness :
    fetch_latest_price srcApiErr 3 =
      { price := none, attempts := 3, sleeps := [1, 2], error_incr := 1 } ∧
    process_product srcApiErr true 0 proc0 prodA =
      ({ proc0 with error_count := proc0.error_count + 1 }, false) :=
  retry_exhaustion_C4 srcApiErr (fun _ => rfl) true 0 proc0 prodA

/-- C10: an exception other than the retryable APIError stops
fetch_latest_price immediately on the attempt that raised it, whatever
number of attempts remains: no further attempt, no additional backoff
sleep, one bump of the per-item error counter, and the absent price is
returned instead of raising; the enclosing per-product processing then
stages nothing. -/
theorem nonretryable_stops_C10 (source : Nat → FetchOutcome) (i : Nat)
    (hi : i < 3) (hpre : ∀ j, j < i → source j = FetchOutcome.apiError)
    (hs : source i = FetchOutcome.otherError)
    (emailOk : Bool) (now : Int) (p : Processor) (product : Product) :
    fetch_latest_price source 3 =
      { price := none, attempts := i + 1,
        sleeps := (List.range i).map (fun j => 2 ^ j), error_incr := 1 } ∧
    process_product source emailOk now p product =
      ({ p with error_count := p.error_count + 1 }, false) := by
  have hf : fetch_latest_price source 3 =
      { price := none, attempts := i + 1,
        sleeps := (List.range i).map (fun j => 2 ^ j), error_incr := 1 } := by
    interval_cases i
    · simp [fetch_latest_price, fetchAux, hs]
    · have q0 := hpre 0 (by norm_num)
      simp [fetch_latest_price, fetchAux, q0, hs, List.range_succ]
    · have q0 := hpre 0 (by norm_num)
      have q1 := hpre 1 (by norm_num)
      simp [fetch_latest_price, fetchAux, q0, q1, hs, List.range_succ]
  refine ⟨hf, ?_⟩
  simp [process_product, hf]

def srcOtherErr : Nat → FetchOutcome := fun i =>
  if i = 0 then FetchOutcome.apiError else FetchOutcome.otherError

theorem nonretryable_stops_C10_witness :
    fetch_latest_price srcOtherErr 3 =
      { price := none, attempts := 2,
        sleeps := (List.range 1).map (fun j => 2 ^ j), error_incr := 1 } ∧
    process_product srcOtherErr true 0 proc0 prodA =
      ({ proc0 with error_count := proc0.error_count + 1 }, false) :=
  nonretryable_stops_C10 srcOtherErr 1 (by norm_num)
    (fun j hj => by interval_cases j; rfl) rfl true 0 proc0 prodA

/-- C5: whenever the fetch succeeds, exactly one PriceObservation row
with the fetched price is staged, price change or not; and when the
fetched price equals the current price, no product row mutates, no
dispatcher call happens and no Alert or NotificationRecord is staged. -/
theorem history_append_C5 (source : Nat → FetchOutcome) (emailOk : Bool) (now : Int)
    (p : Processor) (product : Product) (newP : Int)
    (hfetch : (fetch_latest_price source 3).price = some newP) :
    ((process_product source emailOk now p product).1.sess.live.price_histories =
      p.sess.live.price_histories ++
        [{ id := p.sess.nextId, product_id := product.id, price := newP,
           discount_rate := 0, observed_at := now }]) ∧
    ((process_product source emailOk now p product).2 = true) ∧
    (newP = product.current_price →
      (process_product source emailOk now p product).1.sess.live.products =
        p.sess.live.products ∧
      (process_product source emailOk now p product).1.events = p.events ∧
      (process_product source emailOk now p product).1.sess.live.notifications =
        p.sess.live.notifications ∧
      (process_product source emailOk now p product).1.sess.live.alerts =
        p.sess.live.alerts) := by
  simp only [process_product]
  rw [hfetch]
  by_cases hd : (detect_price_change product newP).price_diff = 0
  · simp only [hd, if_true]
    refine ⟨by simp [record_price_history], by trivial,
      fun _ => ⟨by trivial, by trivial, by trivial, by trivial⟩⟩
  · simp only [hd, if_false]
    have hdz : newP ≠ product.current_price := by
      intro heq
      exact hd (by simp [detect_price_change, heq])
    by_cases hdrop : (detect_price_change product newP).is_price_drop = true
    · simp only [hdrop, if_true]
      constructor
      · have hfr := (check_drop_frame
          { record_price_history
              { p with error_count := p.error_count + (fetch_latest_price source 3).error_incr }.sess
              product newP now with
            live := (record_price_history
              { p with error_count := p.error_count + (fetch_latest_price source 3).error_incr }.sess
              product newP now).live.setProduct (update_product_price product newP now) }
          product.id (detect_price_change product newP).old_price
          (detect_price_change product newP).new_price emailOk now).2.2.2
        rw [hfr]
        simp [record_price_history, DBState.setProduct]
      · exact ⟨by trivial, fun heq => absurd heq hdz⟩
    · simp only [hdrop, if_false]
      refine ⟨by simp [record_price_history, DBState.setProduct], by trivial,
        fun heq => absurd heq hdz⟩

def srcSame : Nat → FetchOutcome := fun _ => FetchOutcome.ok (some 1200)

theorem history_append_C5_witness :
    ((process_product srcSame true 7 proc0 prodA).1.sess.live.price_histories =
      proc0.sess.live.price_histories ++
        [{ id := proc0.sess.nextId, product_id := prodA.id, price := 1200,
           discount_rate := 0, observed_at := 7 }]) ∧
    ((process_product srcSame true 7 proc0 prodA).2 = true) ∧
    ((process_product srcSame true 7 proc0 prodA).1.sess.live.products =
      proc0.sess.live.products) ∧
    ((process_product srcSame true 7 proc0 prodA).1.events = proc0.events) ∧
    ((process_product srcSame true 7 proc0 prodA).1.sess.live.notifications =
      proc0.sess.live.notifications) ∧
    ((process_product srcSame true 7 proc0 prodA).1.sess.live.alerts =
      proc0.sess.live.alerts) := by
  have h := history_append_C5 srcSame true 7 proc0 prodA 1200 (by decide)
  obtain ⟨h1, h2, h3⟩ := h
  obtain ⟨h4, h5, h6, h7⟩ := h3 (by decide)
  exact ⟨h1, h2, h4, h5, h6, h7⟩

theorem update_product_price_id (product : Product) (newP : Int) (now : Int) :
    (update_product_price product newP now).id = product.id := by
  unfold update_product_price
  cases product.lowest_price with
  | none => rfl
  | some l =>
    by_cases hl : newP < l
    · simp [hl]
    · simp [hl]

/-- The lowest price after an update, in the form the specification
uses: the minimum with the previous lowest price when one was set, the
new price when none was. -/
def lowestNext : Option Int → Int → Int
  | none, newP => newP
  | some l, newP => min l newP

theorem update_product_price_eq (product : Product) (newP : Int) (now : Int) :
    update_product_price product newP now =
      { product with
        current_price := newP,
        checked_at := now,
        lowest_price := some (lowestNext product.lowest_price newP) } := by
  unfold update_product_price
  cases hlp : product.lowest_price with
  | none => rfl
  | some l =>
    by_cases hl : newP < l
    · simp [lowestNext, hl, min_eq_right (le_of_lt hl)]
    · simp [lowestNext, hl, min_eq_left (le_of_not_lt hl)]

theorem process_product_products (source : Nat → FetchOutcome) (emailOk : Bool)
    (now : Int) (p : Processor) (product : Product) (newP : Int)
    (hpr : (fetch_latest_price source 3).price = some newP)
    (hd : (detect_price_change product newP).price_diff ≠ 0) :
    (process_product source emailOk now p product).1.sess.live.products =
      p.sess.live.products.map (fun q =>
        if q.id = product.id then update_product_price product newP now else q) := by
  simp only [process_product]
  rw [hpr]
  simp only [if_neg hd]
  by_cases hdrop : (detect_price_change product newP).is_price_drop = true
  · simp only [hdrop, if_true]
    rw [(check_drop_frame _ _ _ _ _ _).1]
    simp [record_price_history, DBState.setProduct, update_product_price_id]
  · simp only [hdrop, if_false]
    simp [record_price_history, DBState.setProduct, update_product_price_id]

theorem find?_map_ite (l : List Product) (pidc : Nat) (p2 : Product)
    (hp2 : p2.id = pidc) (pid : Nat) :
    (l.map (fun q => if q.id = pidc then p2 else q)).find? (fun q => q.id == pid) =
      (l.find? (fun q => q.id == pid)).map
        (fun q => if q.id = pidc then p2 else q) := by
  induction l with
  | nil => rfl
  | cons a rest ih =>
    have hfid : (((if a.id = pidc then p2 else a).id == pid)) = ((a.id == pid)) := by
      split
      · rename_i h
        rw [hp2, ← h]
      · rfl
    by_cases hc : (a.id == pid) = true
    · simp [List.find?, hfid, hc]
    · have hc2 : (a.id == pid) = false := by
        cases hx : (a.id == pid) with
        | true => exact absurd hx hc
        | false => rfl
      simp [List.find?, hfid, hc2, ih]

/-- The sequence of per-product refresh steps: each step names a watched
product id and the API oracle for that refresh; the step processes the
current live row for that id, as the batch does. -/
def processSteps (emailOk : Bool) (now : Int) :
    List (Nat × (Nat → FetchOutcome)) → Processor → Processor
  | [], p => p
  | st :: rest, p =>
    match findProduct p.sess.live st.1 with
    | none => processSteps emailOk now rest p
    | some product =>
      processSteps emailOk now rest (process_product st.2 emailOk now p product).1

/-- The stored lowest price of the live row with a given id. -/
def lowestOf (s : Session) (pid : Nat) : Option (Option Int) :=
  (findProduct s.live pid).map (fun q => q.lowest_price)

theorem process_product_lowest (source : Nat → FetchOutcome) (emailOk : Bool)
    (now : Int) (p : Processor) (product : Product) (pidp pid : Nat) (l : Int)
    (hfound : findProduct p.sess.live pidp = some product)
    (h : lowestOf p.sess pid = some (some l)) :
    ∃ l2, lowestOf (process_product source emailOk now p product).1.sess pid =
      some (some l2) ∧ l2 ≤ l := by
  cases hpr : (fetch_latest_price source 3).price with
  | none =>
    refine ⟨l, ?_, le_refl l⟩
    simp only [process_product, hpr]
    exact h
  | some newP =>
    by_cases hd : (detect_price_change product newP).price_diff = 0
    · refine ⟨l, ?_, le_refl l⟩
      simp only [process_product, hpr, hd, if_true]
      exact h
    · obtain ⟨q, hq, hql⟩ : ∃ q, findProduct p.sess.live pid = some q ∧
          q.lowest_price = some l := by
        unfold lowestOf at h
        cases hfq : findProduct p.sess.live pid with
        | none => rw [hfq] at h; exact absurd h (by simp)
        | some q => rw [hfq] at h; exact ⟨q, rfl, by simpa using h⟩
      have hprod := process_product_products source emailOk now p product newP hpr hd
      have hfind : findProduct (process_product source emailOk now p product).1.sess.live pid =
          (findProduct p.sess.live pid).map
            (fun q2 => if q2.id = product.id then update_product_price product newP now else q2) := by
        unfold findProduct
        rw [hprod]
        exact find?_map_ite _ _ _ (update_product_price_id product newP now) pid
      by_cases hqe : q.id = product.id
      · have hpidp : product.id = pidp := by
          have := List.find?_some hfound
          simpa using this
        have hqpid : q.id = pid := by
          have := List.find?_some hq
          simpa using this
        have hpp : pid = pidp := by rw [← hqpid, hqe, hpidp]
        have hqp : q = product := by
          rw [hpp] at hq
          rw [hfound] at hq
          exact (Option.some.injEq _ _ ▸ hq).symm
        have hlow : product.lowest_price = some l := by rw [← hqp]; exact hql
        refine ⟨min l newP, ?_, min_le_left l newP⟩
        have hval : (update_product_price product newP now).lowest_price =
            some (min l newP) := by
          rw [update_product_price_eq]
          simp [lowestNext, hlow]
        unfold lowestOf
        rw [hfind, hq]
        simp [hqe, hval]
      · refine ⟨l, ?_, le_refl l⟩
        unfold lowestOf
        rw [hfind, hq]
        simp [hqe, hql]

theorem processSteps_lowest (emailOk : Bool) (now : Int) :
    ∀ (steps : List (Nat × (Nat → FetchOutcome))) (p : Processor) (pid : Nat) (l : Int),
    lowestOf p.sess pid = some (some l) →
    ∃ l2, lowestOf (processSteps emailOk now steps p).sess pid = some (some l2) ∧
      l2 ≤ l := by
  intro steps
  induction steps with
  | nil => exact fun p pid l h => ⟨l, h, le_refl l⟩
  | cons st rest ih =>
    intro p pid l h
    simp only [processSteps]
    cases hfp : findProduct p.sess.live st.1 with
    | none => exact ih p pid l h
    | some product =>
      obtain ⟨l2, h2, hle⟩ :=
        process_product_lowest st.2 emailOk now p product st.1 pid l hfp h
      obtain ⟨l3, h3, hle3⟩ := ih _ pid l2 h2
      exact ⟨l3, h3, hle3.trans hle⟩

/-- C6: a refresh that changes the price rewrites the product row so
that the stored lowest price becomes the minimum of the previous lowest
price and the new price when one was set, and the new price when none
was; and across any sequence of refresh steps a lowest price, once set,
never increases. -/
theorem lowest_price_C6 :
    (∀ (source : Nat → FetchOutcome) (emailOk : Bool) (now : Int) (p : Processor)
       (product : Product) (newP : Int),
      (fetch_latest_price source 3).price = some newP →
      newP ≠ product.current_price →
      (process_product source emailOk now p product).1.sess.live.products =
        p.sess.live.products.map (fun q =>
          if q.id = product.id then
            { product with
              current_price := newP,
              checked_at := now,
              lowest_price := some (lowestNext product.lowest_price newP) }
          else q)) ∧
    (∀ (emailOk : Bool) (now : Int) (steps : List (Nat × (Nat → FetchOutcome)))
       (p : Processor) (pid : Nat) (l : Int),
      lowestOf p.sess pid = some (some l) →
      ∃ l2, lowestOf (processSteps emailOk now steps p).sess pid = some (some l2) ∧
        l2 ≤ l) := by
  constructor
  · intro source emailOk now p product newP hfetch hne
    have hd : (detect_price_change product newP).price_diff ≠ 0 := by
      intro h0
      apply hne
      have h1 : newP - product.current_price = 0 := by
        simpa [detect_price_change] using h0
      exact sub_eq_zero.mp h1
    rw [process_product_products source emailOk now p product newP hfetch hd]
    simp only [update_product_price_eq]
  · exact fun emailOk now steps p pid l h => processSteps_lowest emailOk now steps p pid l h

def src950 : Nat → FetchOutcome := fun _ => FetchOutcome.ok (some 950)

theorem lowest_price_C6_witness :
    ((process_product src950 true 3 proc0 prodA).1.sess.live.products =
      proc0.sess.live.products.map (fun q =>
        if q.id = prodA.id then
          { prodA with
            current_price := 950,
            checked_at := 3,
            lowest_price := some (lowestNext prodA.lowest_price 950) }
        else q)) ∧
    (∃ l2, lowestOf (processSteps true 3 [(1, src950)] proc0).sess 1 =
      some (some l2) ∧ l2 ≤ 1200) := by
  constructor
  · exact lowest_price_C6.1 src950 true 3 proc0 prodA 950 (by decide) (by decide)
  · exact lowest_price_C6.2 true 3 [(1, src950)] proc0 1 1200 (by decide)

theorem process_product_commit (source : Nat → FetchOutcome) (emailOk : Bool)
    (now : Int) (p : Processor) (product : Product) :
    ∃ evsT, (process_product source emailOk now p product).1.events = p.events ++ evsT ∧
      (evsT = [] →
        (process_product source emailOk now p product).1.sess.committed =
          p.sess.committed) := by
  cases hpr : (fetch_latest_price source 3).price with
  | none =>
    refine ⟨[], ?_, fun _ => ?_⟩ <;> simp [process_product, hpr]
  | some newP =>
    by_cases hd : (detect_price_change product newP).price_diff = 0
    · refine ⟨[], ?_, fun _ => ?_⟩ <;>
        simp [process_product, hpr, hd, record_price_history]
    · by_cases hdrop : (detect_price_change product newP).is_price_drop = true
      · simp only [process_product, hpr, if_neg hd, hdrop, if_true]
        refine ⟨_, rfl, fun hev => ?_⟩
        exact check_drop_commit _ product.id _ _ emailOk now hev
      · refine ⟨[], ?_, fun _ => ?_⟩ <;>
          simp [process_product, hpr, hd, hdrop, record_price_history]

theorem runLoop_commit (sources : Nat → Nat → FetchOutcome) (emailOk : Bool)
    (now : Int) :
    ∀ (ids : List Nat) (i : Nat) (p : Processor),
    ∃ evsT, (runLoop sources emailOk now ids i p).events = p.events ++ evsT ∧
      (evsT = [] →
        (runLoop sources emailOk now ids i p).sess.committed = p.sess.committed) := by
  intro ids
  induction ids with
  | nil => exact fun i p => ⟨[], by simp [runLoop], fun _ => rfl⟩
  | cons pid rest ih =>
    intro i p
    simp only [runLoop]
    cases hfp : findProduct p.sess.live pid with
    | none => exact ih (i + 1) p
    | some product =>
      obtain ⟨e1, h1, h2⟩ := process_product_commit (sources i) emailOk now p product
      obtain ⟨e2, h3, h4⟩ := ih (i + 1) (process_product (sources i) emailOk now p product).1
      refine ⟨e1 ++ e2, ?_, fun hev => ?_⟩
      · rw [h3, h1, List.append_assoc]
      · obtain ⟨he1, he2⟩ := List.append_eq_nil.mp hev
        rw [h4 he2, h2 he1]

/-- C1 amended: with a failing end-of-cycle commit, the run raises (no
summary is produced), the session is rolled back to its committed state,
and that committed state is whatever the per-product loop left committed
 -  which equals the initial committed state exactly when no notification
was dispatched during the cycle, because each dispatched notification
performs its own mid-cycle commit. -/
theorem commit_rollback_C1 (sources : Nat → Nat → FetchOutcome) (emailOk : Bool)
    (now : Int) (s : Session)
    (hne : (watchedProducts s.live).isEmpty = false) :
    (PriceBatchProcessor.run sources emailOk now false s).summary = none ∧
    (PriceBatchProcessor.run sources emailOk now false s).sess.live =
      (PriceBatchProcessor.run sources emailOk now false s).sess.committed ∧
    (PriceBatchProcessor.run sources emailOk now false s).sess.committed =
      (runLoop sources emailOk now ((watchedProducts s.live).map (fun q => q.id)) 0
        { sess := s, updated_count := 0, error_count := 0, price_changes := [],
          events := [] }).sess.committed ∧
    ((PriceBatchProcessor.run sources emailOk now false s).events = [] →
      (PriceBatchProcessor.run sources emailOk now false s).sess.committed =
        s.committed) := by
  simp only [PriceBatchProcessor.run, hne, Bool.false_eq_true, if_false]
  refine ⟨by trivial, by trivial, by trivial, fun hev => ?_⟩
  obtain ⟨evsT, h1, h2⟩ := runLoop_commit sources emailOk now
    ((watchedProducts s.live).map (fun q => q.id)) 0
    { sess := s, updated_count := 0, error_count := 0, price_changes := [],
      events := [] }
  have hT : evsT = [] := by
    rw [h1] at hev
    simpa using hev
  exact h2 hT

/-- C1 counterexample: on a cycle that dispatches one notification, the
end-of-cycle commit failure is reported as fatal (no summary), yet the
persistent state is not the initial one: the notification record written
by the mid-cycle commit of the send path survives, refuting the claim
that a failing end-of-cycle commit leaves persistent state unchanged. -/
theorem commit_rollback_C1_counterexample :
    (PriceBatchProcessor.run (fun _ _ => FetchOutcome.ok (some 950)) true 0 false
      sess0).summary = none ∧
    (PriceBatchProcessor.run (fun _ _ => FetchOutcome.ok (some 950)) true 0 false
      sess0).sess.committed.notifications.length = 1 ∧
    sess0.committed.notifications.length = 0 := by
  refine ⟨rfl, by decide, rfl⟩

theorem commit_rollback_C1_witness :
    (PriceBatchProcessor.run (fun _ _ => FetchOutcome.apiError) true 0 false
      sess0).summary = none ∧
    (PriceBatchProcessor.run (fun _ _ => FetchOutcome.apiError) true 0 false
      sess0).sess.live =
      (PriceBatchProcessor.run (fun _ _ => FetchOutcome.apiError) true 0 false
        sess0).sess.committed ∧
    (PriceBatchProcessor.run (fun _ _ => FetchOutcome.apiError) true 0 false
      sess0).sess.committed = sess0.committed := by
  have h := commit_rollback_C1 (fun _ _ => FetchOutcome.apiError) true 0 sess0 (by decide)
  exact ⟨h.1, h.2.1, h.2.2.2 (by decide)⟩

/-- Python test `not user or not user.email` for the subscriber lookup:
the user row is missing, or its email is NULL or empty. -/
def user_missing_or_no_email (s : Session) (u : Nat) : Bool :=
  match findUser s.live u with
  | none => true
  | some user => pyFalsyEmail user.email

theorem not_dispatchable_of_missing (s : Session) (u : Nat)
    (hu : user_missing_or_no_email s u = true) :
    ¬ dispatchableUsers s.live.users u := by
  rintro ⟨user, uemail, hf, he, hne⟩
  unfold user_missing_or_no_email at hu
  have hf2 : findUser s.live u = some user := hf
  rw [hf2] at hu
  simp only [] at hu
  rw [he] at hu
  simp only [pyFalsyEmail] at hu
  exact hne (by simpa using hu)

theorem check_target_growth (s : Session) (pid : Nat) (oldP newP : Int)
    (emailOk : Bool) (now : Int) :
    (∀ r2, r2 ∈ (check_and_send_target_achieved_notifications s pid oldP newP emailOk now).2.1 →
      ∃ w, w ∈ s.live.watchlists ∧ r2.user_id = w.user_id ∧
        dispatchableUsers s.live.users w.user_id) ∧
    (∀ e, e ∈ (check_and_send_target_achieved_notifications s pid oldP newP emailOk now).2.2 →
      e.kind = "target_achieved" ∧ e.channel = "email" ∧
        ∃ w, w ∈ s.live.watchlists ∧ e.user_id = w.user_id ∧
          dispatchableUsers s.live.users w.user_id) ∧
    (∀ n, n ∈ (check_and_send_target_achieved_notifications s pid oldP newP emailOk now).1.live.notifications →
      n ∈ s.live.notifications ∨ (n.channel = "email" ∧ n.sent_at = now ∧
        ∃ w, w ∈ s.live.watchlists ∧ n.user_id = w.user_id ∧
          dispatchableUsers s.live.users w.user_id)) ∧
    (∀ a, a ∈ (check_and_send_target_achieved_notifications s pid oldP newP emailOk now).1.live.alerts →
      a ∈ s.live.alerts ∨ (a.alert_type = "target_achieved" ∧
        ∃ w, w ∈ s.live.watchlists ∧ a.watch_item_id = w.id ∧
          dispatchableUsers s.live.users w.user_id)) := by
  unfold check_and_send_target_achieved_notifications
  split
  · exact ⟨fun r2 hr2 => absurd hr2 (by simp), fun e he => absurd he (by simp),
      fun n hn => Or.inl hn, fun a ha => Or.inl ha⟩
  · cases hfp : findProduct s.live pid with
    | none =>
      exact ⟨fun r2 hr2 => absurd hr2 (by simp), fun e he => absurd he (by simp),
        fun n hn => Or.inl hn, fun a ha => Or.inl ha⟩
    | some product =>
      obtain ⟨g1, g2, g3, g4, g5⟩ := targetLoop_growth emailOk now product oldP newP
        (s.live.watchlists.filter (fun w => w.product_id == pid && w.target_price.isSome))
        s [] []
      refine ⟨fun r2 hr2 => ?_, fun e he => ?_, fun n hn => ?_, fun a ha => ?_⟩
      · rcases g3 r2 hr2 with h | ⟨w, hwr, hwa, hd⟩
        · exact absurd h (by simp)
        · exact ⟨w, (List.mem_filter.mp hwr).1, hwa, hd⟩
      · rcases g4 e he with h | ⟨hk, hc, w, hwr, hwa, hd⟩
        · exact absurd h (by simp)
        · exact ⟨hk, hc, w, (List.mem_filter.mp hwr).1, hwa, hd⟩
      · rcases g5 n hn with h | ⟨hc, hs2, w, hwr, hwa, hd⟩
        · exact Or.inl h
        · exact Or.inr ⟨hc, hs2, w, (List.mem_filter.mp hwr).1, hwa, hd⟩
      · rcases g2 a ha with h | ⟨ht, w, hwr, hwa, hd⟩
        · exact Or.inl h
        · exact Or.inr ⟨ht, w, (List.mem_filter.mp hwr).1, hwa, hd⟩

/-- C9: a subscription whose user row is missing, or whose user has no
email address (NULL or empty), is silently skipped by both the plain
drop path and the target-achieved path: no result entry, no dispatcher
call, no new NotificationRecord for that user, and every new Alert
belongs to a subscription of some other user. -/
theorem missing_email_skip_C9 (s : Session) (pid : Nat) (oldP newP : Int)
    (emailOk : Bool) (now : Int) (u : Nat)
    (hu : user_missing_or_no_email s u = true) :
    ((∀ r2, r2 ∈ (check_and_send_price_drop_notifications s pid oldP newP emailOk now).2.1 →
        r2.user_id ≠ u) ∧
      (∀ e, e ∈ (check_and_send_price_drop_notifications s pid oldP newP emailOk now).2.2 →
        e.user_id ≠ u) ∧
      (∀ n, n ∈ (check_and_send_price_drop_notifications s pid oldP newP emailOk now).1.live.notifications →
        n.user_id = u → n ∈ s.live.notifications) ∧
      (∀ a, a ∈ (check_and_send_price_drop_notifications s pid oldP newP emailOk now).1.live.alerts →
        a ∉ s.live.alerts →
        ∃ w, w ∈ s.live.watchlists ∧ a.watch_item_id = w.id ∧ w.user_id ≠ u)) ∧
    ((∀ r2, r2 ∈ (check_and_send_target_achieved_notifications s pid oldP newP emailOk now).2.1 →
        r2.user_id ≠ u) ∧
      (∀ e, e ∈ (check_and_send_target_achieved_notifications s pid oldP newP emailOk now).2.2 →
        e.user_id ≠ u) ∧
      (∀ n, n ∈ (check_and_send_target_achieved_notifications s pid oldP newP emailOk now).1.live.notifications →
        n.user_id = u → n ∈ s.live.notifications) ∧
      (∀ a, a ∈ (check_and_send_target_achieved_notifications s pid oldP newP emailOk now).1.live.alerts →
        a ∉ s.live.alerts →
        ∃ w, w ∈ s.live.watchlists ∧ a.watch_item_id = w.id ∧ w.user_id ≠ u)) := by
  have hnd : ¬ dispatchableUsers s.live.users u := not_dispatchable_of_missing s u hu
  constructor
  · obtain ⟨g1, g2, g3, g4, g5⟩ := check_drop_growth s pid oldP newP emailOk now
    refine ⟨fun r2 hr2 hru => ?_, fun e he heu => ?_, fun n hn hnu => ?_,
      fun a ha hna => ?_⟩
    · obtain ⟨w, hw, hwa, hd⟩ := g3 r2 hr2
      exact hnd (by rw [← hwa] at hd; rw [hru] at hd; exact hd)
    · obtain ⟨hk, hc, w, hw, hwa, hd⟩ := g4 e he
      exact hnd (by rw [← hwa] at hd; rw [heu] at hd; exact hd)
    · rcases g5 n hn with h | ⟨hc, hs2, w, hw, hwa, hd⟩
      · exact h
      · exact absurd hd (by rw [← hwa, hnu]; exact hnd)
    · rcases g2 a ha with h | ⟨ht, w, hw, hwa, hd⟩
      · exact absurd h hna
      · refine ⟨w, hw, hwa, fun hwu => ?_⟩
        rw [hwu] at hd
        exact hnd hd
  · obtain ⟨g3, g4, g5, g2⟩ := check_target_growth s pid oldP newP emailOk now
    refine ⟨fun r2 hr2 hru => ?_, fun e he heu => ?_, fun n hn hnu => ?_,
      fun a ha hna => ?_⟩
    · obtain ⟨w, hw, hwa, hd⟩ := g3 r2 hr2
      exact hnd (by rw [← hwa] at hd; rw [hru] at hd; exact hd)
    · obtain ⟨hk, hc, w, hw, hwa, hd⟩ := g4 e he
      exact hnd (by rw [← hwa] at hd; rw [heu] at hd; exact hd)
    · rcases g5 n hn with h | ⟨hc, hs2, w, hw, hwa, hd⟩
      · exact h
      · exact absurd hd (by rw [← hwa, hnu]; exact hnd)
    · rcases g2 a ha with h | ⟨ht, w, hw, hwa, hd⟩
      · exact absurd h hna
      · refine ⟨w, hw, hwa, fun hwu => ?_⟩
        rw [hwu] at hd
        exact hnd hd

def userB : User := { id := 99, email := some "" }

def watchB : Watchlist :=
  { id := 101, user_id := 99, product_id := 1, target_price := some 1000,
    notify_any_drop := true, registered_price := none }

def dbM : DBState :=
  { products := [prodA], watchlists := [watchB], users := [userB],
    price_histories := [], alerts := [], notifications := [] }

def sessM : Session := { committed := dbM, live := dbM, nextId := 600 }

theorem missing_email_skip_C9_witness :
    ((check_and_send_price_drop_notifications sessM 1 1200 950 true 0).2.1.all
      (fun r2 => r2.user_id != 99) = true) ∧
    ((check_and_send_target_achieved_notifications sessM 1 1200 950 true 0).2.1.all
      (fun r2 => r2.user_id != 99) = true) := by
  have h := missing_email_skip_C9 sessM 1 1200 950 true 0 99 (by decide)
  constructor
  · rw [List.all_eq_true]
    intro x hx
    simpa using h.1.1 x hx
  · rw [List.all_eq_true]
    intro x hx
    simpa using h.2.1 x hx

theorem process_product_alert_types (source : Nat → FetchOutcome) (emailOk : Bool)
    (now : Int) (p : Processor) (product : Product) :
    ∀ a, a ∈ (process_product source emailOk now p product).1.sess.live.alerts →
      a ∈ p.sess.live.alerts ∨ a.alert_type = "price_drop" := by
  intro a ha
  cases hpr : (fetch_latest_price source 3).price with
  | none =>
    simp only [process_product, hpr] at ha
    exact Or.inl ha
  | some newP =>
    by_cases hd : (detect_price_change product newP).price_diff = 0
    · simp only [process_product, hpr, hd, if_true] at ha
      exact Or.inl ha
    · by_cases hdrop : (detect_price_change product newP).is_price_drop = true
      · simp only [process_product, hpr, if_neg hd, hdrop, if_true] at ha
        rcases (check_drop_growth _ product.id _ _ emailOk now).2.1 a ha with h | ⟨ht, _⟩
        · exact Or.inl h
        · exact Or.inr ht
      · simp only [process_product, hpr, if_neg hd, hdrop, if_false] at ha
        exact Or.inl ha

/-- C3 amended: the crossing condition is exactly the trigger of
check_and_send_target_achieved_notifications  -  for a subscription with
a target price whose user is reachable and not in cooldown, the call
dispatches precisely when the drop crosses the target (old price
strictly above it, new price at or below it); however, the batch refresh
itself never invokes this path: every alert a refresh can create is a
price_drop alert. -/
theorem target_crossing_C3 :
    (∀ (s : Session) (pid : Nat) (oldP newP : Int) (emailOk : Bool) (now : Int)
       (item : Watchlist) (tv : Int) (product : Product) (user : User) (uemail : String),
      s.live.watchlists = [item] →
      item.product_id = pid →
      item.target_price = some tv →
      findProduct s.live pid = some product →
      findUser s.live item.user_id = some user →
      user.email = some uemail →
      uemail ≠ "" →
      is_notification_cooldown s item.user_id pid now = false →
      (((check_and_send_target_achieved_notifications s pid oldP newP emailOk now).2.2 ≠ []) ↔
        (newP < oldP ∧ newP ≤ tv ∧ tv < oldP))) ∧
    (∀ (source : Nat → FetchOutcome) (emailOk : Bool) (now : Int) (p : Processor)
       (product : Product) (a : Alert),
      a ∈ (process_product source emailOk now p product).1.sess.live.alerts →
      a ∈ p.sess.live.alerts ∨ a.alert_type = "price_drop") := by
  constructor
  · intro s pid oldP newP emailOk now item tv product user uemail hw hpid htv hfp
      hfu hem hne hcd
    unfold check_and_send_target_achieved_notifications
    by_cases hpd : newP ≥ oldP
    · rw [if_pos hpd]
      constructor
      · intro h
        exact absurd rfl h
      · rintro ⟨h1, -, -⟩
        exact absurd h1 (not_lt.mpr hpd)
    · rw [if_neg hpd]
      rw [hfp]
      have hitems : s.live.watchlists.filter
          (fun w => w.product_id == pid && w.target_price.isSome) = [item] := by
        rw [hw]
        simp [hpid, htv]
      rw [hitems]
      have hid : user.id = item.user_id := by
        have := List.find?_some hfu
        simpa using this
      have hfe : pyFalsyEmail user.email = false := by
        rw [hem]
        simp [pyFalsyEmail, hne]
      have hcd2 : is_notification_cooldown s user.id product.id now = false := by
        rw [hid]
        exact hcd
      by_cases h1 : newP > tv
      · simp only [targetLoop, targetStep, htv]
        simp [h1, not_le.mpr (lt_of_not_ge hpd), not_lt.mpr (le_of_lt h1)]
      · by_cases h2 : oldP ≤ tv
        · simp only [targetLoop, targetStep, htv]
          simp [h1, h2, not_lt.mpr h2]
        · have ha : newP < oldP := lt_of_not_ge hpd
          have hb : newP ≤ tv := le_of_not_lt h1
          have hc2 : tv < oldP := lt_of_not_ge h2
          simp only [targetLoop, targetStep, htv]
          simp [h1, h2, hfu, hem, hcd2, targetLoop, ha, hb, hc2, pyFalsyEmail, hne]
  · exact process_product_alert_types

/-- C3 counterexample: with one subscriber at target 1000 and a refresh
that drops the price from 1200 to 950 the crossing condition holds, yet
the refresh writes no target_achieved alert and makes no target-achieved
dispatcher call  -  process_product only ever invokes the plain drop
path, so the claim that the refresh triggers the target-achieved path on
crossing is false. -/
theorem target_crossing_C3_counterexample :
    ((950 : Int) < 1200 ∧ (950 : Int) ≤ 1000 ∧ (1000 : Int) < 1200) ∧
    ((process_product src950 true 0 proc0 prodA).1.sess.live.alerts.all
      (fun a => a.alert_type != "target_achieved") = true) ∧
    ((process_product src950 true 0 proc0 prodA).1.events.all
      (fun e => e.kind != "target_achieved") = true) ∧
    ((process_product src950 true 0 proc0 prodA).1.sess.live.alerts.length = 1) := by
  refine ⟨by norm_num, by decide, by decide, by decide⟩

theorem target_crossing_C3_witness :
    ((check_and_send_target_achieved_notifications sess0 1 1200 950 true 0).2.2 ≠ []) ∧
    ((process_product src950 true 0 proc0 prodA).1.sess.live.alerts.all
      (fun a => a.alert_type == "price_drop") = true) := by
  constructor
  · exact (target_crossing_C3.1 sess0 1 1200 950 true 0 watchA 1000 prodA userA
      "alice" rfl rfl rfl (by decide) (by decide) rfl (by decide) (by decide)).mpr
      (by norm_num)
  · rw [List.all_eq_true]
    intro a ha
    rcases target_crossing_C3.2 src950 true 0 proc0 prodA a ha with h | h
    · simp [proc0, sess0, db0] at h
    · simp [h]

theorem find?_append_last {α : Type} (l : List (CacheEntry α)) (e : CacheEntry α)
    (p : CacheEntry α → Bool) (h : ∀ x ∈ l, p x = false) :
    (l ++ [e]).find? p = if p e then some e else none := by
  induction l with
  | nil =>
    simp only [List.nil_append, List.find?]
    cases hp : p e <;> simp [hp]
  | cons a rest ih =>
    have ha : p a = false := h a (List.mem_cons_self _ _)
    simp only [List.cons_append, List.find?, ha]
    exact ih (fun x hx => h x (List.mem_cons_of_mem _ hx))

theorem set_entries {α : Type} (c : ProductCacheService α) (k : String) (v : α)
    (s : Int) :
    ∃ pre, (c.set k v s).entries =
        pre ++ [{ key := normalize_key k, value := v, expires := s + c.ttl }] ∧
      ∀ x ∈ pre, (x.key == normalize_key k) = false := by
  simp only [ProductCacheService.set]
  by_cases hp : (c.entries.filter (fun e => decide (s < e.expires))).any
      (fun e => e.key == normalize_key k) = true
  · refine ⟨_, by rw [if_pos hp], fun x hx => ?_⟩
    have := (List.mem_filter.mp hx).2
    simpa [bne] using this
  · refine ⟨_, by rw [if_neg hp], fun x hx => ?_⟩
    have hx2 := List.mem_of_mem_drop hx
    cases hk : (x.key == normalize_key k) with
    | false => rfl
    | true => exact absurd (List.any_eq_true.mpr ⟨x, hx2, hk⟩) hp

/-- C7: set followed by get round-trips through key normalization
before the TTL elapses, and at or after expiry the get reports absence
while the entry no longer counts toward the current_size that get_stats
reports (every counted entry carries a different key). -/
theorem cache_roundtrip_C7 {α : Type} (c : ProductCacheService α) (k k2 : String)
    (v : α) (s t : Int) (hk : normalize_key k2 = normalize_key k) :
    (t < s + c.ttl → ((c.set k v s).get k2 t).1 = some v) ∧
    (s + c.ttl ≤ t →
      ((c.set k v s).get k2 t).1 = none ∧
      ((c.set k v s).entries.filter (fun e => decide (t < e.expires))).all
        (fun e => e.key != normalize_key k) = true ∧
      ((c.set k v s).get_stats t).current_size =
        ((c.set k v s).entries.filter (fun e => decide (t < e.expires))).length) := by
  obtain ⟨pre, hpre, hkeys⟩ := set_entries c k v s
  have hfind : (c.set k v s).entries.find?
      (fun e => e.key == normalize_key k2) =
      some { key := normalize_key k, value := v, expires := s + c.ttl } := by
    rw [hpre, hk, find?_append_last _ _ _ hkeys]
    simp
  constructor
  · intro ht
    simp only [ProductCacheService.get]
    rw [hfind]
    simp [ht]
  · intro ht
    refine ⟨?_, ?_, rfl⟩
    · simp only [ProductCacheService.get]
      rw [hfind]
      simp [not_lt.mpr ht]
    · rw [List.all_eq_true]
      intro e he
      have he2 := List.mem_filter.mp he
      rw [hpre] at he2
      rcases List.mem_append.mp he2.1 with hin | hin
      · simpa [bne] using hkeys e hin
      · have : e = { key := normalize_key k, value := v, expires := s + c.ttl } := by
          simpa using hin
        subst this
        have := he2.2
        simp [not_lt.mpr ht] at this

theorem cache_roundtrip_C7_witness :
    (((ProductCacheService.init Nat 50 10).set "a" 7 0).get " A " 20).1 = some 7 ∧
    (((ProductCacheService.init Nat 50 10).set "a" 7 0).get " A " 50).1 = none ∧
    ((((ProductCacheService.init Nat 50 10).set "a" 7 0).entries.filter
      (fun e => decide ((50 : Int) < e.expires))).all
      (fun e => e.key != normalize_key "a") = true) := by
  have h20 := cache_roundtrip_C7 (ProductCacheService.init Nat 50 10) "a" " A " 7 0 20
    (by decide)
  have h50 := cache_roundtrip_C7 (ProductCacheService.init Nat 50 10) "a" " A " 7 0 50
    (by decide)
  refine ⟨h20.1 (by decide), (h50.2 (by decide)).1, (h50.2 (by decide)).2.1⟩

theorem eraseFirstKey_length {α : Type} :
    ∀ (l : List (CacheEntry α)) (key : String) (e : CacheEntry α),
    l.find? (fun x => x.key == key) = some e →
    (eraseFirstKey l key).length + 1 = l.length := by
  intro l
  induction l with
  | nil => intro key e h; simp [List.find?] at h
  | cons a rest ih =>
    intro key e h
    cases hk : (a.key == key) with
    | true => simp [eraseFirstKey, hk]
    | false =>
      simp only [List.find?, hk] at h
      simp only [eraseFirstKey, hk, Bool.false_eq_true, if_false, List.length_cons]
      rw [ih key e h]

theorem filter_bne_length_lt {α : Type} :
    ∀ (l : List (CacheEntry α)) (key : String),
    l.any (fun e => e.key == key) = true →
    (l.filter (fun e => e.key != key)).length < l.length := by
  intro l
  induction l with
  | nil => intro key h; simp at h
  | cons a rest ih =>
    intro key h
    by_cases hk : (a.key == key) = true
    · have hne : (a.key != key) = false := by simp [bne, hk]
      simp only [List.filter, hne, Bool.false_eq_true, if_false, List.length_cons]
      exact Nat.lt_succ_of_le (List.length_filter_le _ _)
    · have h2 : rest.any (fun e => e.key == key) = true := by
        rcases List.any_eq_true.mp h with ⟨x, hx, hxk⟩
        rcases List.mem_cons.mp hx with hxa | hxr
        · exact absurd (hxa ▸ hxk) hk
        · exact List.any_eq_true.mpr ⟨x, hxr, hxk⟩
      have hne : (a.key != key) = true := by simp [bne]; simpa using hk
      simp only [List.filter, hne, if_true, List.length_cons]
      exact Nat.succ_lt_succ (ih key h2)

theorem cache_op_bound {α : Type} (c : ProductCacheService α) (op : CacheOp α)
    (hc : c.entries.length ≤ c.max_size) (hm : 1 ≤ c.max_size) :
    (applyOp c op).entries.length ≤ c.max_size ∧
    (applyOp c op).max_size = c.max_size := by
  cases op with
  | get k t =>
    refine ⟨?_, ?_⟩ <;> simp only [applyOp, ProductCacheService.get]
    · cases hf : c.entries.find? (fun e => e.key == normalize_key k) with
      | none => simpa using hc
      | some e =>
        have hlen := eraseFirstKey_length c.entries (normalize_key k) e hf
        simp only [hf]
        split <;>
          (simp only [List.length_append, List.length_cons, List.length_nil]; omega)
    · cases hf : c.entries.find? (fun e => e.key == normalize_key k) with
      | none => rfl
      | some e =>
        simp only [hf]
        split <;> rfl
  | set k v t =>
    constructor
    · simp only [applyOp, ProductCacheService.set]
      have hfl : (c.entries.filter (fun e => decide (t < e.expires))).length ≤
          c.entries.length := List.length_filter_le _ _
      by_cases hp : ((c.entries.filter (fun e => decide (t < e.expires))).any
          (fun e => e.key == normalize_key k)) = true
      · rw [if_pos hp]
        have := filter_bne_length_lt _ (normalize_key k) hp
        simp only [List.length_append, List.length_cons, List.length_nil]
        omega
      · rw [if_neg hp]
        have hdrop := List.length_drop
          ((c.entries.filter (fun e => decide (t < e.expires))).length + 1 - c.max_size)
          (c.entries.filter (fun e => decide (t < e.expires)))
        simp only [List.length_append, List.length_cons, List.length_nil]
        omega
    · simp [applyOp, ProductCacheService.set]
  | del k t =>
    refine ⟨?_, ?_⟩ <;> simp only [applyOp, ProductCacheService.delete]
    · cases hf : c.entries.find? (fun e => e.key == normalize_key k) with
      | none => simpa using hc
      | some e =>
        simp only [hf]
        split
        · exact le_trans (List.length_filter_le _ _) hc
        · simpa using hc
    · cases hf : c.entries.find? (fun e => e.key == normalize_key k) with
      | none => rfl
      | some e =>
        simp only [hf]
        split <;> rfl
  | clear t =>
    exact ⟨by simp [applyOp, ProductCacheService.clear], rfl⟩

theorem runOps_bound {α : Type} :
    ∀ (ops : List (CacheOp α)) (c : ProductCacheService α),
    1 ≤ c.max_size → c.entries.length ≤ c.max_size →
    (runOps c ops).entries.length ≤ c.max_size ∧
    (runOps c ops).max_size = c.max_size := by
  intro ops
  induction ops with
  | nil => exact fun c hm hc => ⟨hc, rfl⟩
  | cons op rest ih =>
    intro c hm hc
    obtain ⟨h1, h2⟩ := cache_op_bound c op hc hm
    obtain ⟨h3, h4⟩ := ih (applyOp c op) (h2 ▸ hm) (h2 ▸ h1)
    exact ⟨h2 ▸ h3, h2 ▸ h4⟩

/-- C8: starting from a fresh cache whose bound is at least one, any
sequence of get, set, delete and clear operations leaves at most
max_size entries, with the least-recently-used entry evicted when a set
would exceed the bound; with max_size = 2, setting a then b then c
evicts a (get reports absent) while c is present. -/
theorem cache_lru_bound_C8 (α : Type) :
    (∀ (ttl : Int) (m : Nat), 1 ≤ m → ∀ ops : List (CacheOp α),
      (runOps (ProductCacheService.init α ttl m) ops).entries.length ≤ m) ∧
    (((runOps (ProductCacheService.init Nat 100 2)
        [CacheOp.set "a" 1 0, CacheOp.set "b" 2 0, CacheOp.set "c" 3 0]).get "a" 0).1 =
      none ∧
     ((runOps (ProductCacheService.init Nat 100 2)
        [CacheOp.set "a" 1 0, CacheOp.set "b" 2 0, CacheOp.set "c" 3 0]).get "c" 0).1 =
      some 3) := by
  constructor
  · intro ttl m hm ops
    exact (runOps_bound ops (ProductCacheService.init α ttl m) hm (by simp [ProductCacheService.init])).1
  · constructor <;> decide

theorem cache_lru_bound_C8_witness :
    (runOps (ProductCacheService.init Nat 100 2)
      [CacheOp.set "a" 1 0, CacheOp.set "b" 2 0, CacheOp.set "c" 3 0]).entries.length ≤ 2 :=
  (cache_lru_bound_C8 Nat).1 100 2 (by norm_num)
    [CacheOp.set "a" 1 0, CacheOp.set "b" 2 0, CacheOp.set "c" 3 0]
